import Mathlib

set_option allowUnsafeReducibility true
attribute [local semireducible] Rat.mul Rat.add Rat.sub Rat.inv Rat.div

/-!
Shallow embedding of `src/mcts_nn_cube.py` (classes `State`, `MCTSNode`,
`MCTSAgent`).

Modelling choices:
* Python floats are embedded as rationals `ℚ`; the numeric library's
  `np.sqrt` and floating-point power `**` are taken as parameters of the
  environment (`sqrtFn`, `powFn`), since their exact float values never
  decide any of the structural properties below.
* The puzzle simulator (`BatchCube`, wrapped by class `State`) is external
  to the search core; it enters only through `next`, `key`, `done` and
  `input_array`, which are fields of the environment `Env`.
* The mutable object graph (nodes shared between parents and the
  transposition table) is embedded as an arena: a list of nodes addressed
  by their index, with the table mapping canonical keys to indices.
* The nondeterministic Dirichlet draw `np.random.dirichlet([.5]*12, 1)[0]`
  is passed in as an explicit `noise` vector.
* `oracle_calls` is a ghost counter incremented exactly at the call sites
  of `model_policy_value` in the source (the guarded call in
  `MCTSNode.__init__` and the unconditional root-noise calls in
  `MCTSAgent.__init__` / `advance_to_action`).
* Python attributes that are never assigned on terminal nodes carry inert
  default values here, except `prior_probabilities`, whose absence is
  observable and is therefore modelled with `Option`.
-/

namespace MctsNnCube

/-- Module constant `action_count = 12`. -/
def action_count : Nat := 12

/-- Module constant `max_depth_value = 0.0`, returned when the depth budget
runs out. -/
def max_depth_value : ℚ := 0

/-- The external collaborators of the search core: the simulator operations
of class `State` (`next`, `key`, `done`, `input_array`), the policy/value
oracle `model_policy_value`, and interpretations of the numeric library's
square root and power functions. -/
structure Env (σ κ ι : Type) where
  next : σ → Nat → σ
  key : σ → κ
  done : σ → Bool
  inputArray : σ → ι
  oracle : ι → List ℚ × ℚ
  sqrtFn : Nat → ℚ
  powFn : ℚ → ℚ → ℚ

/-- Modelled from the spec: the function `rotationally_randomize` applied to
the supplied policy/value function in `MCTSAgent.__init__` is missing from
the source (it is referenced but defined nowhere in the repository).  Spec
§4.2 allows the Oracle Adapter to wrap the oracle with an action-bijective
symmetry transform; we model the neutral such wrapper (the identity), so
each call to the wrapped function is one oracle call. -/
def rotationally_randomize (oracle : ι → List ℚ × ℚ) : ι → List ℚ × ℚ := oracle

/-- One search node (class `MCTSNode`).  `children` holds arena indices. -/
structure MCTSNode (σ : Type) where
  state : σ
  terminal : Bool
  is_leaf_node : Bool
  c_puct : ℚ
  prior_probabilities : Option (List ℚ)
  node_value : ℚ
  total_visit_counts : Nat
  visit_counts : List Nat
  total_action_values : List ℚ
  mean_action_values : List ℚ
  children : List (Option Nat)
deriving DecidableEq

instance {σ : Type} [Inhabited σ] : Inhabited (MCTSNode σ) :=
  ⟨⟨default, true, true, 0, none, 0, 0, List.replicate action_count 0,
    List.replicate action_count 0, List.replicate action_count 0,
    List.replicate action_count none⟩⟩

/-- `MCTSNode.__init__`: determine terminality; for a non-terminal state call
the oracle once for priors and value and zero-initialize the statistics.
Returns the node together with the number of oracle calls made (0 or 1). -/
def mkNode {σ κ ι : Type} (env : Env σ κ ι) (cp : ℚ) (s : σ) : MCTSNode σ × Nat :=
  if env.done s then
    (⟨s, true, true, 0, none, 0, 0, List.replicate action_count 0,
      List.replicate action_count 0, List.replicate action_count 0,
      List.replicate action_count none⟩, 0)
  else
    let pv := env.oracle (env.inputArray s)
    (⟨s, false, true, cp, some pv.1, pv.2, 0, List.replicate action_count 0,
      List.replicate action_count 0, List.replicate action_count 0,
      List.replicate action_count none⟩, 1)

/-- The mutable state owned by `MCTSAgent`, with the shared node arena. -/
structure AgentState (σ κ : Type) where
  nodes : List (MCTSNode σ)
  transposition_table : List (κ × Nat)
  initial_node : Nat
  max_depth : Nat
  c_puct : ℚ
  gamma : ℚ
  total_steps : Nat
  shortest_path : ℤ
  oracle_calls : Nat
deriving DecidableEq

/-- Dereference an arena index (Python attribute access on a node object). -/
def AgentState.getNode {σ κ : Type} [Inhabited σ] (ag : AgentState σ κ) (nid : Nat) :
    MCTSNode σ :=
  ag.nodes.getD nid default

/-- Replace the node stored at an arena index (in-place mutation of the
Python object). -/
def AgentState.setNode {σ κ : Type} (ag : AgentState σ κ) (nid : Nat) (n : MCTSNode σ) :
    AgentState σ κ :=
  { ag with nodes := ag.nodes.set nid n }

/-- Dictionary membership/lookup in the transposition table. -/
def ttLookup {κ : Type} [DecidableEq κ] : List (κ × Nat) → κ → Option Nat
  | [], _ => none
  | (k2, v) :: rest, k => if k2 = k then some v else ttLookup rest k

/-- `np.argmax` helper: the first maximum of a list, as index/value pair. -/
def argmaxPair : List ℚ → Option (Nat × ℚ)
  | [] => none
  | x :: xs =>
    match argmaxPair xs with
    | none => some (0, x)
    | some p => if x < p.2 then some (p.1 + 1, p.2) else some (0, x)

/-- `np.argmax`: index of the first maximum of a list (0 on the empty list);
ties are broken by the lowest index. -/
def argmaxList (l : List ℚ) : Nat :=
  match argmaxPair l with
  | none => 0
  | some p => p.1

/-- `MCTSNode.upper_confidence_bounds`:
`(node_value * c_puct * sqrt(total_visit_counts)) * prior_probabilities / (1 + visit_counts)`,
as a length-`action_count` vector. -/
def MCTSNode.upper_confidence_bounds {σ κ ι : Type} (env : Env σ κ ι) (n : MCTSNode σ) :
    List ℚ :=
  (List.range action_count).map fun a =>
    n.node_value * n.c_puct * env.sqrtFn n.total_visit_counts *
      ((n.prior_probabilities.getD []).getD a 0) / (1 + (n.visit_counts.getD a 0 : ℚ))

/-- The selection scores `self.mean_action_values + self.upper_confidence_bounds()`
whose argmax drives the recursive step of `select_leaf_and_update`. -/
def MCTSNode.selection_scores {σ κ ι : Type} (env : Env σ κ ι) (n : MCTSNode σ) :
    List ℚ :=
  List.zipWith (· + ·) n.mean_action_values (n.upper_confidence_bounds env)

/-- `np.argmax(self.mean_action_values + self.upper_confidence_bounds())`. -/
def MCTSNode.chosenAction {σ κ ι : Type} (env : Env σ κ ι) (n : MCTSNode σ) : Nat :=
  argmaxList (n.selection_scores env)

/-- The pre-recursion visit-count update of `select_leaf_and_update`:
`self.total_visit_counts += 1; self.visit_counts[action] += 1`. -/
def MCTSNode.incVisit {σ : Type} (n : MCTSNode σ) (a : Nat) : MCTSNode σ :=
  { n with total_visit_counts := n.total_visit_counts + 1,
           visit_counts := n.visit_counts.set a (n.visit_counts.getD a 0 + 1) }

/-- The post-recursion backup of `select_leaf_and_update`:
`self.total_action_values[action] += action_value;
self.mean_action_values[action] = self.total_action_values[action] / self.visit_counts[action]`. -/
def MCTSNode.backup {σ : Type} (n : MCTSNode σ) (a : Nat) (v : ℚ) : MCTSNode σ :=
  { n with total_action_values := n.total_action_values.set a (n.total_action_values.getD a 0 + v),
           mean_action_values := n.mean_action_values.set a
             ((n.total_action_values.getD a 0 + v) / (n.visit_counts.getD a 0 : ℚ)) }

/-- `MCTSNode.child`: return the already-indexed child, else resolve the
action's outcome state through the transposition table, else create a new
node, register it under its key, and link it.  Returns the updated agent
state and the child's arena index. -/
def childOp {σ κ ι : Type} [Inhabited σ] [DecidableEq κ] (env : Env σ κ ι)
    (ag : AgentState σ κ) (nid : Nat) (action : Nat) : AgentState σ κ × Nat :=
  let node := ag.getNode nid
  match node.children.getD action none with
  | some cid => (ag, cid)
  | none =>
    let next_state := env.next node.state action
    let k := env.key next_state
    match ttLookup ag.transposition_table k with
    | some cid =>
      (ag.setNode nid { node with children := node.children.set action (some cid) }, cid)
    | none =>
      let nc := mkNode env ag.c_puct next_state
      let cid := ag.nodes.length
      let ag1 : AgentState σ κ :=
        { ag with nodes := ag.nodes ++ [nc.1], oracle_calls := ag.oracle_calls + nc.2 }
      let ag2 := ag1.setNode nid { node with children := node.children.set action (some cid) }
      ({ ag2 with transposition_table := (k, cid) :: ag2.transposition_table }, cid)

/-- `MCTSNode.select_leaf_and_update(mcts_agent, max_depth)`: one recursive
simulation step.  `fuel` is the remaining depth budget (`max_depth` in the
source); the result is the updated agent state and the returned value. -/
def selectLeafAndUpdate {σ κ ι : Type} [Inhabited σ] [DecidableEq κ] (env : Env σ κ ι)
    (fuel : Nat) (ag : AgentState σ κ) (nid : Nat) : AgentState σ κ × ℚ :=
  let node := ag.getNode nid
  if node.terminal then
    let depth : ℤ := (ag.max_depth : ℤ) - (fuel : ℤ)
    (if depth < ag.shortest_path then { ag with shortest_path := depth } else ag, 1)
  else if node.is_leaf_node then
    (ag.setNode nid { node with is_leaf_node := false }, node.node_value)
  else
    match fuel with
    | 0 => (ag, max_depth_value)
    | fuel' + 1 =>
      let action := node.chosenAction env
      let ag1 := ag.setNode nid (node.incVisit action)
      let r1 := childOp env ag1 nid action
      let r2 := selectLeafAndUpdate env fuel' r1.1 r1.2
      let action_value := r2.1.gamma * r2.2
      (r2.1.setNode nid ((r2.1.getNode nid).backup action action_value), action_value)
termination_by structural fuel

/-- `MCTSNode.action_probabilities(inv_temp)`. -/
def MCTSNode.action_probabilities {σ κ ι : Type} (env : Env σ κ ι) (n : MCTSNode σ)
    (inv_temp : ℚ) : Option (List ℚ) :=
  if n.terminal || n.is_leaf_node then none
  else if inv_temp = 1 then
    some (n.visit_counts.map fun c => (c : ℚ) / (n.visit_counts.sum : ℚ))
  else
    let e := n.visit_counts.map fun c => env.powFn ((c : ℚ) / (n.visit_counts.sum : ℚ)) inv_temp
    some (e.map fun x => x / e.sum)

/-- `MCTSNode.action_visit_counts()`. -/
def MCTSNode.action_visit_counts {σ : Type} (n : MCTSNode σ) : List Nat :=
  if n.terminal || n.is_leaf_node then List.replicate action_count 0
  else n.visit_counts

/-- The root-noise mix `.75 * priors + .25 * np.random.dirichlet([.5]*12, 1)[0]`
with the Dirichlet sample supplied as `noise`. -/
def mixPrior (priors noise : List ℚ) : List ℚ :=
  List.zipWith (fun p n => 3/4 * p + 1/4 * n) priors noise

/-- The body of `MCTSAgent.__init__` after the (failing) name resolution of
`rotationally_randomize`: build the root node, unconditionally overwrite its
prior probabilities with the noised oracle priors, and initialize the
shortest-path sentinel `max_depth + 1`.  The transposition table starts out
as the default empty dict. -/
def agentInit {σ κ ι : Type} [Inhabited σ] [DecidableEq κ] (env : Env σ κ ι)
    (noise : List ℚ) (initial_state : σ) (max_depth : Nat) (c_puct gamma : ℚ) :
    AgentState σ κ :=
  let rn := mkNode env c_puct initial_state
  let raw := (rotationally_randomize env.oracle) (env.inputArray initial_state)
  let root := { rn.1 with prior_probabilities := some (mixPrior raw.1 noise) }
  { nodes := [root], transposition_table := [], initial_node := 0,
    max_depth := max_depth, c_puct := c_puct, gamma := gamma, total_steps := 0,
    shortest_path := (max_depth : ℤ) + 1, oracle_calls := rn.2 + 1 }

/-- One iteration of the loop in `MCTSAgent.search`. -/
def searchStep {σ κ ι : Type} [Inhabited σ] [DecidableEq κ] (env : Env σ κ ι)
    (ag : AgentState σ κ) : AgentState σ κ :=
  let r := selectLeafAndUpdate env ag.max_depth ag ag.initial_node
  { r.1 with total_steps := r.1.total_steps + 1 }

/-- `MCTSAgent.search(steps)`. -/
def search {σ κ ι : Type} [Inhabited σ] [DecidableEq κ] (env : Env σ κ ι) :
    Nat → AgentState σ κ → AgentState σ κ
  | 0, ag => ag
  | s + 1, ag => search env s (searchStep env ag)

/-- `MCTSAgent.action_probabilities(inv_temp)` (delegates to the root node). -/
def agentActionProbabilities {σ κ ι : Type} [Inhabited σ] (env : Env σ κ ι)
    (ag : AgentState σ κ) (inv_temp : ℚ) : Option (List ℚ) :=
  (ag.getNode ag.initial_node).action_probabilities env inv_temp

/-- `MCTSAgent.advance_to_action(action)`: move the root to
`initial_node.child(action)`, overwrite the new root's priors with noised
oracle priors (one oracle call through the wrapped function), and reset the
shortest-path sentinel. -/
def advanceToAction {σ κ ι : Type} [Inhabited σ] [DecidableEq κ] (env : Env σ κ ι)
    (noise : List ℚ) (ag : AgentState σ κ) (action : Nat) : AgentState σ κ :=
  let r := childOp env ag ag.initial_node action
  let ag1 := r.1
  let cid := r.2
  let raw := (rotationally_randomize env.oracle) (env.inputArray (ag1.getNode cid).state)
  let ag2 := ag1.setNode cid
    { ag1.getNode cid with prior_probabilities := some (mixPrior raw.1 noise) }
  { ag2 with initial_node := cid, shortest_path := (ag2.max_depth : ℤ) + 1,
             oracle_calls := ag2.oracle_calls + 1 }

/-- `MCTSAgent.stats('shortest_path')`. -/
def statsShortestPath {σ κ : Type} (ag : AgentState σ κ) : ℤ :=
  if ag.shortest_path ≤ (ag.max_depth : ℤ) then ag.shortest_path else -1

/-- The names bound at top level of module `mcts_nn_cube` when
`MCTSAgent.__init__` runs: the five imported names and `warnings`, the four
module constants, the three classes and the two functions.
`rotationally_randomize` is not among them (and is not a Python builtin). -/
def mctsModuleGlobals : List String :=
  ["np", "BatchCube", "position_permutations", "color_permutations",
   "opp_action_permutations", "warnings", "action_count", "constant_priors",
   "constant_value", "max_depth_value", "State", "MCTSNode", "MCTSAgent",
   "prob_box", "main"]

/-- Result of running a Python constructor: a value, or an uncaught
`NameError` naming the unresolved identifier. -/
inductive PyOutcome (α : Type) where
  | ok : α → PyOutcome α
  | nameError : String → PyOutcome α
deriving DecidableEq

/-- `MCTSAgent.__init__` as the interpreter sees it: its first statement
applies the global name `rotationally_randomize`; if that name is not bound
in the module's globals the constructor raises `NameError` before any other
effect, otherwise the rest of the body (`agentInit`) runs. -/
def mctsAgentInitPy {σ κ ι : Type} [Inhabited σ] [DecidableEq κ]
    (globals : List String) (env : Env σ κ ι) (noise : List ℚ) (initial_state : σ)
    (max_depth : Nat) (c_puct gamma : ℚ) : PyOutcome (AgentState σ κ) :=
  if "rotationally_randomize" ∈ globals then
    PyOutcome.ok (agentInit env noise initial_state max_depth c_puct gamma)
  else
    PyOutcome.nameError "rotationally_randomize"

end MctsNnCube

namespace MctsNnCube

/-! ### List helper lemmas -/

theorem getD_set_self {α : Type} (l : List α) (i : Nat) (v d : α) (h : i < l.length) :
    (l.set i v).getD i d = v := by
  induction l generalizing i with
  | nil => simp at h
  | cons x xs ih =>
    cases i with
    | zero => rfl
    | succ j => simpa using ih j (by simpa using h)

theorem getD_set_ne {α : Type} (l : List α) (i j : Nat) (v d : α) (h : i ≠ j) :
    (l.set i v).getD j d = l.getD j d := by
  induction l generalizing i j with
  | nil => rfl
  | cons x xs ih =>
    cases i with
    | zero =>
      cases j with
      | zero => exact absurd rfl h
      | succ j2 => rfl
    | succ i2 =>
      cases j with
      | zero => rfl
      | succ j2 => simpa using ih i2 j2 (by omega)

theorem getD_append_left {α : Type} (l l2 : List α) (i : Nat) (d : α) (h : i < l.length) :
    (l ++ l2).getD i d = l.getD i d := by
  induction l generalizing i with
  | nil => simp at h
  | cons x xs ih =>
    cases i with
    | zero => rfl
    | succ j => simpa using ih j (by simpa using h)

theorem getD_append_len {α : Type} (l l2 : List α) (x d : α) :
    (l ++ x :: l2).getD l.length d = x := by
  induction l with
  | nil => rfl
  | cons y ys ih => simpa using ih

theorem getD_of_length_le {α : Type} (l : List α) (i : Nat) (d : α) (h : l.length ≤ i) :
    l.getD i d = d := by
  induction l generalizing i with
  | nil => rfl
  | cons x xs ih =>
    cases i with
    | zero => simp at h
    | succ j => simpa using ih j (by simpa using h)

theorem getD_replicate {α : Type} (n i : Nat) (a d : α) (h : i < n) :
    (List.replicate n a).getD i d = a := by
  induction n generalizing i with
  | zero => omega
  | succ m ih =>
    cases i with
    | zero => rfl
    | succ j =>
      simp only [List.replicate_succ, List.getD_cons_succ]
      exact ih j (by omega)

theorem sum_set_add (l : List Nat) (i k : Nat) (h : i < l.length) :
    (l.set i (l.getD i 0 + k)).sum = l.sum + k := by
  induction l generalizing i with
  | nil => simp at h
  | cons x xs ih =>
    cases i with
    | zero => simp [List.sum_cons]; omega
    | succ j =>
      have := ih j (by simpa using h)
      simp only [List.set, List.getD_cons_succ, List.sum_cons, this]
      omega

/-! ### First-argmax (`np.argmax`) lemmas -/

theorem argmaxPair_eq_none (l : List ℚ) : argmaxPair l = none ↔ l = [] := by
  cases l with
  | nil => simp [argmaxPair]
  | cons x xs =>
    simp only [argmaxPair]
    cases h : argmaxPair xs with
    | none => simp
    | some p =>
      by_cases hx : x < p.2 <;> simp [hx]

theorem argmaxPair_spec (l : List ℚ) (p : Nat × ℚ) (h : argmaxPair l = some p) :
    p.1 < l.length ∧ l.getD p.1 0 = p.2 ∧ (∀ i, i < l.length → l.getD i 0 ≤ p.2) ∧
      (∀ i, i < p.1 → l.getD i 0 < p.2) := by
  induction l generalizing p with
  | nil => simp [argmaxPair] at h
  | cons x xs ih =>
    simp only [argmaxPair] at h
    cases hx : argmaxPair xs with
    | none =>
      rw [hx] at h
      have hnil : xs = [] := (argmaxPair_eq_none xs).mp hx
      cases h
      subst hnil
      refine ⟨by simp, rfl, ?_, ?_⟩
      · intro i hi
        have hi0 : i = 0 := by simp at hi; omega
        subst hi0
        simp
      · intro i hi
        omega
    | some q =>
      rw [hx] at h
      obtain ⟨hq1, hq2, hq3, hq4⟩ := ih q hx
      by_cases hlt : x < q.2
      · simp only [if_pos hlt] at h
        cases h
        refine ⟨by simpa using Nat.succ_lt_succ hq1, by simpa using hq2, ?_, ?_⟩
        · intro i hi
          cases i with
          | zero => exact le_of_lt hlt
          | succ j => exact hq3 j (by simpa using hi)
        · intro i hi
          cases i with
          | zero => exact hlt
          | succ j => exact hq4 j (by omega)
      · simp only [if_neg hlt] at h
        cases h
        refine ⟨by simp, rfl, ?_, ?_⟩
        · intro i hi
          cases i with
          | zero => simp
          | succ j =>
            calc xs.getD j 0 ≤ q.2 := hq3 j (by simpa using hi)
            _ ≤ x := not_lt.mp hlt
        · intro i hi
          omega

theorem argmaxList_spec (l : List ℚ) (h : l ≠ []) :
    argmaxList l < l.length ∧ (∀ i, i < l.length → l.getD i 0 ≤ l.getD (argmaxList l) 0) ∧
      (∀ i, i < argmaxList l → l.getD i 0 < l.getD (argmaxList l) 0) := by
  cases hp : argmaxPair l with
  | none => exact absurd ((argmaxPair_eq_none l).mp hp) h
  | some p =>
    obtain ⟨h1, h2, h3, h4⟩ := argmaxPair_spec l p hp
    have ha : argmaxList l = p.1 := by simp [argmaxList, hp]
    rw [ha, h2]
    exact ⟨h1, h3, h4⟩

end MctsNnCube

namespace MctsNnCube

/-! ### Arena access lemmas -/

theorem getNode_setNode_self {σ κ : Type} [Inhabited σ] (ag : AgentState σ κ) (nid : Nat)
    (n : MCTSNode σ) (h : nid < ag.nodes.length) : (ag.setNode nid n).getNode nid = n := by
  simp only [AgentState.getNode, AgentState.setNode]
  exact getD_set_self ag.nodes nid n default h

theorem getNode_setNode_ne {σ κ : Type} [Inhabited σ] (ag : AgentState σ κ) (nid m : Nat)
    (n : MCTSNode σ) (h : nid ≠ m) : (ag.setNode nid n).getNode m = ag.getNode m := by
  simp only [AgentState.getNode, AgentState.setNode]
  exact getD_set_ne ag.nodes nid m n default h

theorem getNode_setNode_oob {σ κ : Type} [Inhabited σ] (ag : AgentState σ κ) (nid m : Nat)
    (n : MCTSNode σ) (h : ag.nodes.length ≤ nid) : (ag.setNode nid n).getNode m = ag.getNode m := by
  simp only [AgentState.getNode, AgentState.setNode]
  rw [List.set_eq_of_length_le h]

theorem getNode_default {σ κ : Type} [Inhabited σ] (ag : AgentState σ κ) (m : Nat)
    (h : ag.nodes.length ≤ m) : ag.getNode m = default := by
  simp only [AgentState.getNode]
  exact getD_of_length_le ag.nodes m default h

/-! ### Invariants -/

/-- The four statistic fields of a node that backup maintains. -/
def stats4 {σ : Type} (n : MCTSNode σ) : Nat × List Nat × List ℚ × List ℚ :=
  (n.total_visit_counts, n.visit_counts, n.total_action_values, n.mean_action_values)

/-- Freshly zero-initialized statistics. -/
def zeroStats : Nat × List Nat × List ℚ × List ℚ :=
  (0, List.replicate action_count 0, List.replicate action_count 0,
   List.replicate action_count 0)

/-- Every statistic vector of the node has length `action_count`. -/
def nodeWF {σ : Type} (n : MCTSNode σ) : Prop :=
  n.visit_counts.length = action_count ∧ n.total_action_values.length = action_count ∧
    n.mean_action_values.length = action_count ∧ n.children.length = action_count

/-- Arena-wide well-formedness (holds also for the out-of-range default). -/
def AgentWF {σ κ : Type} [Inhabited σ] (ag : AgentState σ κ) : Prop :=
  ∀ nid, nodeWF (ag.getNode nid)

/-- `total_visit_counts` equals the sum of `visit_counts`. -/
def nodeSumOK {σ : Type} (n : MCTSNode σ) : Prop :=
  n.total_visit_counts = n.visit_counts.sum

def SumOK {σ κ : Type} [Inhabited σ] (ag : AgentState σ κ) : Prop :=
  ∀ nid, nodeSumOK (ag.getNode nid)

/-- `mean_action_values[a] = total_action_values[a] / visit_counts[a]` for all
visited actions of all nodes, except possibly the node/action pairs listed in
`E` (the pairs with an in-flight backup pending). -/
def MeanOKExcept {σ κ : Type} [Inhabited σ] (ag : AgentState σ κ) (E : List (Nat × Nat)) :
    Prop :=
  ∀ nid a, (nid, a) ∉ E → 0 < (ag.getNode nid).visit_counts.getD a 0 →
    (ag.getNode nid).mean_action_values.getD a 0 =
      (ag.getNode nid).total_action_values.getD a 0 /
        ((ag.getNode nid).visit_counts.getD a 0 : ℚ)

theorem default_node_wf {σ : Type} [Inhabited σ] : nodeWF (default : MCTSNode σ) := by
  refine ⟨?_, ?_, ?_, ?_⟩ <;> simp [default]

theorem default_node_stats {σ : Type} [Inhabited σ] : stats4 (default : MCTSNode σ) = zeroStats := by
  rfl

theorem mkNode_wf {σ κ ι : Type} (env : Env σ κ ι) (cp : ℚ) (s : σ) :
    nodeWF (mkNode env cp s).1 := by
  unfold mkNode nodeWF
  split <;> simp

theorem mkNode_stats {σ κ ι : Type} (env : Env σ κ ι) (cp : ℚ) (s : σ) :
    stats4 (mkNode env cp s).1 = zeroStats := by
  unfold mkNode
  split <;> rfl

theorem stats4_mean_transfer {σ : Type} (n n2 : MCTSNode σ) (h : stats4 n = stats4 n2) (a : Nat)
    (hm : n2.mean_action_values.getD a 0 =
      n2.total_action_values.getD a 0 / (n2.visit_counts.getD a 0 : ℚ)) :
    n.mean_action_values.getD a 0 =
      n.total_action_values.getD a 0 / (n.visit_counts.getD a 0 : ℚ) := by
  unfold stats4 at h
  obtain ⟨h1, h2, h3, h4⟩ : n.total_visit_counts = n2.total_visit_counts ∧
      n.visit_counts = n2.visit_counts ∧ n.total_action_values = n2.total_action_values ∧
      n.mean_action_values = n2.mean_action_values := by
    exact ⟨congrArg (fun p => p.1) h, congrArg (fun p => p.2.1) h,
      congrArg (fun p => p.2.2.1) h, congrArg (fun p => p.2.2.2) h⟩
  rw [h2, h3, h4]
  exact hm

theorem zeroStats_visits_zero (a : Nat) : (zeroStats.2.1).getD a 0 = 0 := by
  unfold zeroStats
  by_cases h : a < action_count
  · exact getD_replicate action_count a 0 0 h
  · exact getD_of_length_le _ a 0 (by simpa using Nat.le_of_not_lt h)

end MctsNnCube

namespace MctsNnCube

/-! ### `childOp` characterization -/

theorem stats4_children {σ : Type} (n : MCTSNode σ) (c : List (Option Nat)) :
    stats4 { n with children := c } = stats4 n := rfl

theorem stats4_zero_visits {σ : Type} (n : MCTSNode σ) (h : stats4 n = zeroStats) (a : Nat) :
    n.visit_counts.getD a 0 = 0 := by
  have h2 : n.visit_counts = zeroStats.2.1 := congrArg (fun p => p.2.1) h
  rw [h2]
  exact zeroStats_visits_zero a

theorem stats4_zero_sumOK {σ : Type} (n : MCTSNode σ) (h : stats4 n = zeroStats) :
    nodeSumOK n := by
  have h1 : n.total_visit_counts = zeroStats.1 := congrArg (fun p => p.1) h
  have h2 : n.visit_counts = zeroStats.2.1 := congrArg (fun p => p.2.1) h
  unfold nodeSumOK
  rw [h1, h2]
  simp [zeroStats, List.sum_replicate]

theorem stats4_sum_transfer {σ : Type} (n n2 : MCTSNode σ) (h : stats4 n = stats4 n2)
    (h2 : nodeSumOK n2) : nodeSumOK n := by
  have e1 : n.total_visit_counts = n2.total_visit_counts := congrArg (fun p => p.1) h
  have e2 : n.visit_counts = n2.visit_counts := congrArg (fun p => p.2.1) h
  unfold nodeSumOK
  rw [e1, e2]
  exact h2

/-- What `child` can do to any single arena slot: leave it alone, set one
`children` entry of the parent, or (for the fresh slot) fill it with a newly
constructed node. -/
theorem childOp_getNode {σ κ ι : Type} [Inhabited σ] [DecidableEq κ] (env : Env σ κ ι)
    (ag : AgentState σ κ) (nid a m : Nat) :
    (childOp env ag nid a).1.getNode m = ag.getNode m ∨
    (∃ cid, (childOp env ag nid a).1.getNode m =
      { ag.getNode m with children := (ag.getNode m).children.set a (some cid) }) ∨
    (childOp env ag nid a).1.getNode m = (mkNode env ag.c_puct (env.next (ag.getNode nid).state a)).1 := by
  simp only [childOp]
  split
  · exact Or.inl rfl
  · split
    · by_cases hlen : nid < ag.nodes.length
      · by_cases hm : m = nid
        · subst hm
          rw [getNode_setNode_self _ _ _ hlen]
          exact Or.inr (Or.inl ⟨_, rfl⟩)
        · rw [getNode_setNode_ne _ _ _ _ (fun h => hm h.symm)]
          exact Or.inl rfl
      · rw [getNode_setNode_oob _ _ _ _ (Nat.le_of_not_lt hlen)]
        exact Or.inl rfl
    · simp only [AgentState.setNode, AgentState.getNode]
      by_cases hm : m = nid
      · subst hm
        by_cases hlen : m < ag.nodes.length + 1
        · rw [getD_set_self _ _ _ _ (by simpa using hlen)]
          exact Or.inr (Or.inl ⟨ag.nodes.length, rfl⟩)
        · rw [List.set_eq_of_length_le (by simpa using Nat.le_of_not_lt hlen)]
          rw [getD_of_length_le _ _ _ (by simp; omega)]
          rw [getD_of_length_le ag.nodes m default (by omega)]
          exact Or.inl rfl
      · rw [getD_set_ne _ _ _ _ _ (fun h => hm h.symm)]
        by_cases hin : m < ag.nodes.length
        · rw [getD_append_left _ _ _ _ hin]
          exact Or.inl rfl
        · by_cases hend : m = ag.nodes.length
          · subst hend
            rw [getD_append_len]
            exact Or.inr (Or.inr rfl)
          · rw [getD_of_length_le _ _ _ (by simp; omega)]
            rw [getD_of_length_le ag.nodes m default (by omega)]
            exact Or.inl rfl

theorem childOp_stats4 {σ κ ι : Type} [Inhabited σ] [DecidableEq κ] (env : Env σ κ ι)
    (ag : AgentState σ κ) (nid a m : Nat) :
    stats4 ((childOp env ag nid a).1.getNode m) = stats4 (ag.getNode m) ∨
      stats4 ((childOp env ag nid a).1.getNode m) = zeroStats := by
  rcases childOp_getNode env ag nid a m with h | ⟨cid, h⟩ | h
  · exact Or.inl (by rw [h])
  · exact Or.inl (by rw [h, stats4_children])
  · exact Or.inr (by rw [h, mkNode_stats])

theorem childOp_WF {σ κ ι : Type} [Inhabited σ] [DecidableEq κ] (env : Env σ κ ι)
    (ag : AgentState σ κ) (nid a : Nat) (hag : AgentWF ag) :
    AgentWF (childOp env ag nid a).1 := by
  intro m
  rcases childOp_getNode env ag nid a m with h | ⟨cid, h⟩ | h
  · rw [h]; exact hag m
  · rw [h]
    obtain ⟨w1, w2, w3, w4⟩ := hag m
    exact ⟨w1, w2, w3, by simpa [List.length_set] using w4⟩
  · rw [h]; exact mkNode_wf env ag.c_puct _

theorem childOp_SumOK {σ κ ι : Type} [Inhabited σ] [DecidableEq κ] (env : Env σ κ ι)
    (ag : AgentState σ κ) (nid a : Nat) (hag : SumOK ag) :
    SumOK (childOp env ag nid a).1 := by
  intro m
  rcases childOp_stats4 env ag nid a m with h | h
  · exact stats4_sum_transfer _ _ h (hag m)
  · exact stats4_zero_sumOK _ h

theorem childOp_MeanOK {σ κ ι : Type} [Inhabited σ] [DecidableEq κ] (env : Env σ κ ι)
    (ag : AgentState σ κ) (nid a : Nat) (E : List (Nat × Nat)) (hag : MeanOKExcept ag E) :
    MeanOKExcept (childOp env ag nid a).1 E := by
  intro m b hmE hv
  rcases childOp_stats4 env ag nid a m with h | h
  · have hv2 : 0 < (ag.getNode m).visit_counts.getD b 0 := by
      have e2 : ((childOp env ag nid a).1.getNode m).visit_counts = (ag.getNode m).visit_counts :=
        congrArg (fun p => p.2.1) h
      rwa [e2] at hv
    exact stats4_mean_transfer _ _ h b (hag m b hmE hv2)
  · rw [stats4_zero_visits _ h b] at hv
    exact absurd hv (by omega)

theorem childOp_proj {σ κ ι : Type} [Inhabited σ] [DecidableEq κ] (env : Env σ κ ι)
    (ag : AgentState σ κ) (nid a : Nat) :
    (childOp env ag nid a).1.gamma = ag.gamma ∧
    (childOp env ag nid a).1.max_depth = ag.max_depth ∧
    (childOp env ag nid a).1.c_puct = ag.c_puct ∧
    (childOp env ag nid a).1.shortest_path = ag.shortest_path ∧
    (childOp env ag nid a).1.initial_node = ag.initial_node ∧
    (childOp env ag nid a).1.total_steps = ag.total_steps ∧
    ag.nodes.length ≤ (childOp env ag nid a).1.nodes.length := by
  simp only [childOp]
  split
  · exact ⟨rfl, rfl, rfl, rfl, rfl, rfl, le_refl _⟩
  · split
    · refine ⟨rfl, rfl, rfl, rfl, rfl, rfl, ?_⟩
      simp [AgentState.setNode, List.length_set]
    · refine ⟨rfl, rfl, rfl, rfl, rfl, rfl, ?_⟩
      simp [AgentState.setNode, List.length_set]

end MctsNnCube

namespace MctsNnCube

/-! ### Branch equations for `select_leaf_and_update` -/

/-- The child resolution performed by the recursive branch: increment the
visit counts of the chosen action, then resolve `child(action)`. -/
def sluStep1 {σ κ ι : Type} [Inhabited σ] [DecidableEq κ] (env : Env σ κ ι)
    (ag : AgentState σ κ) (nid : Nat) : AgentState σ κ × Nat :=
  childOp env (ag.setNode nid ((ag.getNode nid).incVisit ((ag.getNode nid).chosenAction env)))
    nid ((ag.getNode nid).chosenAction env)

/-- The recursive sub-call of the recursive branch. -/
def sluInner {σ κ ι : Type} [Inhabited σ] [DecidableEq κ] (env : Env σ κ ι) (f : Nat)
    (ag : AgentState σ κ) (nid : Nat) : AgentState σ κ × ℚ :=
  selectLeafAndUpdate env f (sluStep1 env ag nid).1 (sluStep1 env ag nid).2

theorem slu_terminal_eq {σ κ ι : Type} [Inhabited σ] [DecidableEq κ] (env : Env σ κ ι)
    (fuel : Nat) (ag : AgentState σ κ) (nid : Nat) (h : (ag.getNode nid).terminal = true) :
    selectLeafAndUpdate env fuel ag nid =
      (if ((ag.max_depth : ℤ) - (fuel : ℤ)) < ag.shortest_path
        then { ag with shortest_path := (ag.max_depth : ℤ) - (fuel : ℤ) } else ag, 1) := by
  rw [selectLeafAndUpdate.eq_def]
  simp [h]

theorem slu_leaf_eq {σ κ ι : Type} [Inhabited σ] [DecidableEq κ] (env : Env σ κ ι)
    (fuel : Nat) (ag : AgentState σ κ) (nid : Nat) (h1 : (ag.getNode nid).terminal = false)
    (h2 : (ag.getNode nid).is_leaf_node = true) :
    selectLeafAndUpdate env fuel ag nid =
      (ag.setNode nid { ag.getNode nid with is_leaf_node := false },
        (ag.getNode nid).node_value) := by
  rw [selectLeafAndUpdate.eq_def]
  simp [h1, h2]

theorem slu_zero_eq {σ κ ι : Type} [Inhabited σ] [DecidableEq κ] (env : Env σ κ ι)
    (ag : AgentState σ κ) (nid : Nat) (h1 : (ag.getNode nid).terminal = false)
    (h2 : (ag.getNode nid).is_leaf_node = false) :
    selectLeafAndUpdate env 0 ag nid = (ag, max_depth_value) := by
  rw [selectLeafAndUpdate]
  simp [h1, h2]

theorem slu_rec_eq {σ κ ι : Type} [Inhabited σ] [DecidableEq κ] (env : Env σ κ ι)
    (f : Nat) (ag : AgentState σ κ) (nid : Nat) (h1 : (ag.getNode nid).terminal = false)
    (h2 : (ag.getNode nid).is_leaf_node = false) :
    selectLeafAndUpdate env (f + 1) ag nid =
      ((sluInner env f ag nid).1.setNode nid
        (((sluInner env f ag nid).1.getNode nid).backup ((ag.getNode nid).chosenAction env)
          ((sluInner env f ag nid).1.gamma * (sluInner env f ag nid).2)),
       (sluInner env f ag nid).1.gamma * (sluInner env f ag nid).2) := by
  rw [selectLeafAndUpdate]
  simp [h1, h2, sluInner, sluStep1]

end MctsNnCube

namespace MctsNnCube

/-! ### Support lemmas for the simulation induction -/

/-- A non-terminal node is a real arena entry (the out-of-range default is
terminal). -/
theorem lt_length_of_not_terminal {σ κ : Type} [Inhabited σ] (ag : AgentState σ κ)
    (nid : Nat) (h : (ag.getNode nid).terminal = false) : nid < ag.nodes.length := by
  by_contra hc
  rw [getNode_default ag nid (Nat.le_of_not_lt hc)] at h
  simp [default] at h

theorem selection_scores_length {σ κ ι : Type} (env : Env σ κ ι) (n : MCTSNode σ)
    (h : n.mean_action_values.length = action_count) :
    (n.selection_scores env).length = action_count := by
  simp [MCTSNode.selection_scores, MCTSNode.upper_confidence_bounds, h]

theorem chosenAction_lt {σ κ ι : Type} (env : Env σ κ ι) (n : MCTSNode σ)
    (h : n.mean_action_values.length = action_count) :
    n.chosenAction env < action_count := by
  have hl := selection_scores_length env n h
  have hne : n.selection_scores env ≠ [] := by
    intro hnil
    rw [hnil] at hl
    simp [action_count] at hl
  have := (argmaxList_spec (n.selection_scores env) hne).1
  rw [hl] at this
  exact this

theorem incVisit_wf {σ : Type} (n : MCTSNode σ) (a : Nat) (h : nodeWF n) :
    nodeWF (n.incVisit a) := by
  obtain ⟨w1, w2, w3, w4⟩ := h
  exact ⟨by simpa [MCTSNode.incVisit, List.length_set] using w1, w2, w3, w4⟩

theorem backup_wf {σ : Type} (n : MCTSNode σ) (a : Nat) (v : ℚ) (h : nodeWF n) :
    nodeWF (n.backup a v) := by
  obtain ⟨w1, w2, w3, w4⟩ := h
  exact ⟨w1, by simpa [MCTSNode.backup, List.length_set] using w2,
    by simpa [MCTSNode.backup, List.length_set] using w3, w4⟩

theorem incVisit_sumOK {σ : Type} (n : MCTSNode σ) (a : Nat) (h : nodeSumOK n)
    (ha : a < n.visit_counts.length) : nodeSumOK (n.incVisit a) := by
  unfold nodeSumOK MCTSNode.incVisit at *
  simp only []
  rw [sum_set_add n.visit_counts a 1 ha, h]

theorem backup_sumOK {σ : Type} (n : MCTSNode σ) (a : Nat) (v : ℚ) (h : nodeSumOK n) :
    nodeSumOK (n.backup a v) := h

theorem AgentWF_setNode {σ κ : Type} [Inhabited σ] (ag : AgentState σ κ) (nid : Nat)
    (n : MCTSNode σ) (hag : AgentWF ag) (hn : nodeWF n) : AgentWF (ag.setNode nid n) := by
  intro m
  by_cases hlen : nid < ag.nodes.length
  · by_cases hm : m = nid
    · subst hm
      rw [getNode_setNode_self _ _ _ hlen]
      exact hn
    · rw [getNode_setNode_ne _ _ _ _ (fun h => hm h.symm)]
      exact hag m
  · rw [getNode_setNode_oob _ _ _ _ (Nat.le_of_not_lt hlen)]
    exact hag m

theorem slu_proj {σ κ ι : Type} [Inhabited σ] [DecidableEq κ] (env : Env σ κ ι) :
    ∀ (fuel : Nat) (ag : AgentState σ κ) (nid : Nat),
      (selectLeafAndUpdate env fuel ag nid).1.gamma = ag.gamma ∧
      (selectLeafAndUpdate env fuel ag nid).1.max_depth = ag.max_depth ∧
      (selectLeafAndUpdate env fuel ag nid).1.initial_node = ag.initial_node ∧
      (selectLeafAndUpdate env fuel ag nid).1.c_puct = ag.c_puct ∧
      ag.nodes.length ≤ (selectLeafAndUpdate env fuel ag nid).1.nodes.length := by
  intro fuel
  induction fuel with
  | zero =>
    intro ag nid
    by_cases h1 : (ag.getNode nid).terminal = true
    · rw [slu_terminal_eq env 0 ag nid h1]
      split
      · exact ⟨rfl, rfl, rfl, rfl, le_refl _⟩
      · exact ⟨rfl, rfl, rfl, rfl, le_refl _⟩
    · replace h1 : (ag.getNode nid).terminal = false := by simpa using h1
      by_cases h2 : (ag.getNode nid).is_leaf_node = true
      · rw [slu_leaf_eq env 0 ag nid h1 h2]
        exact ⟨rfl, rfl, rfl, rfl, by simp [AgentState.setNode]⟩
      · replace h2 : (ag.getNode nid).is_leaf_node = false := by simpa using h2
        rw [slu_zero_eq env ag nid h1 h2]
        exact ⟨rfl, rfl, rfl, rfl, le_refl _⟩
  | succ f ih =>
    intro ag nid
    by_cases h1 : (ag.getNode nid).terminal = true
    · rw [slu_terminal_eq env (f + 1) ag nid h1]
      split
      · exact ⟨rfl, rfl, rfl, rfl, le_refl _⟩
      · exact ⟨rfl, rfl, rfl, rfl, le_refl _⟩
    · replace h1 : (ag.getNode nid).terminal = false := by simpa using h1
      by_cases h2 : (ag.getNode nid).is_leaf_node = true
      · rw [slu_leaf_eq env (f + 1) ag nid h1 h2]
        exact ⟨rfl, rfl, rfl, rfl, by simp [AgentState.setNode]⟩
      · replace h2 : (ag.getNode nid).is_leaf_node = false := by simpa using h2
        rw [slu_rec_eq env f ag nid h1 h2]
        simp only [sluInner, sluStep1]
        obtain ⟨cg, cm, cp2, csp, cin, cts, cl⟩ :=
          childOp_proj env
            (ag.setNode nid ((ag.getNode nid).incVisit ((ag.getNode nid).chosenAction env)))
            nid ((ag.getNode nid).chosenAction env)
        obtain ⟨g1, m1, i1, p1, l1⟩ :=
          ih (childOp env
              (ag.setNode nid ((ag.getNode nid).incVisit ((ag.getNode nid).chosenAction env)))
              nid ((ag.getNode nid).chosenAction env)).1
            (childOp env
              (ag.setNode nid ((ag.getNode nid).incVisit ((ag.getNode nid).chosenAction env)))
              nid ((ag.getNode nid).chosenAction env)).2
        refine ⟨?_, ?_, ?_, ?_, ?_⟩
        · simpa [AgentState.setNode] using g1.trans cg
        · simpa [AgentState.setNode] using m1.trans cm
        · simpa [AgentState.setNode] using i1.trans cin
        · simpa [AgentState.setNode] using p1.trans cp2
        · have e0 : (ag.setNode nid
              ((ag.getNode nid).incVisit ((ag.getNode nid).chosenAction env))).nodes.length =
              ag.nodes.length := by
            simp [AgentState.setNode]
          calc ag.nodes.length = _ := e0.symm
            _ ≤ _ := cl
            _ ≤ _ := l1
            _ = _ := by simp [AgentState.setNode]

end MctsNnCube

namespace MctsNnCube

theorem getNode_setNode_cases {σ κ : Type} [Inhabited σ] (ag : AgentState σ κ)
    (nid m : Nat) (n : MCTSNode σ) (hlen : nid < ag.nodes.length) :
    (m = nid ∧ (ag.setNode nid n).getNode m = n) ∨
      (m ≠ nid ∧ (ag.setNode nid n).getNode m = ag.getNode m) := by
  by_cases hm : m = nid
  · subst hm
    exact Or.inl ⟨rfl, getNode_setNode_self _ _ _ hlen⟩
  · exact Or.inr ⟨hm, getNode_setNode_ne _ _ _ _ (fun h => hm h.symm)⟩

theorem SumOK_setNode {σ κ : Type} [Inhabited σ] (ag : AgentState σ κ) (nid : Nat)
    (n : MCTSNode σ) (hag : SumOK ag) (hn : nodeSumOK n) : SumOK (ag.setNode nid n) := by
  intro m
  by_cases hlen : nid < ag.nodes.length
  · rcases getNode_setNode_cases ag nid m n hlen with ⟨_, h⟩ | ⟨_, h⟩
    · rw [h]; exact hn
    · rw [h]; exact hag m
  · rw [getNode_setNode_oob _ _ _ _ (Nat.le_of_not_lt hlen)]
    exact hag m

/-- The pre-recursion visit increment keeps the mean/total identity for every
pair except the freshly pending `(nid, A)`. -/
theorem MeanOK_incVisit {σ κ : Type} [Inhabited σ] (ag : AgentState σ κ) (nid A : Nat)
    (E : List (Nat × Nat)) (hlen : nid < ag.nodes.length) (hag : MeanOKExcept ag E) :
    MeanOKExcept (ag.setNode nid ((ag.getNode nid).incVisit A)) ((nid, A) :: E) := by
  intro m b hmb hv
  rcases getNode_setNode_cases ag nid m ((ag.getNode nid).incVisit A) hlen with ⟨hm, h⟩ | ⟨hm, h⟩
  · subst hm
    rw [h] at hv ⊢
    have hbA : b ≠ A := by
      intro hb
      exact hmb (by rw [hb]; exact List.mem_cons_self _ _)
    simp only [MCTSNode.incVisit] at hv ⊢
    rw [getD_set_ne _ _ _ _ _ (fun hh => hbA hh.symm)] at hv ⊢
    exact hag m b (fun hmem => hmb (List.mem_cons_of_mem _ hmem)) hv
  · rw [h] at hv ⊢
    exact hag m b (fun hmem => hmb (List.mem_cons_of_mem _ hmem)) hv

/-- The post-recursion backup discharges the pending pair `(nid, A)`:
afterwards the mean/total identity holds for every pair outside `E`. -/
theorem MeanOK_backup {σ κ : Type} [Inhabited σ] (ag : AgentState σ κ) (nid A : Nat)
    (v : ℚ) (E : List (Nat × Nat)) (hlen : nid < ag.nodes.length)
    (hwf : nodeWF (ag.getNode nid)) (hag : MeanOKExcept ag ((nid, A) :: E))
    (hA : A < action_count) :
    MeanOKExcept (ag.setNode nid ((ag.getNode nid).backup A v)) E := by
  intro m b hmb hv
  rcases getNode_setNode_cases ag nid m ((ag.getNode nid).backup A v) hlen with ⟨hm, h⟩ | ⟨hm, h⟩
  · subst hm
    rw [h] at hv ⊢
    obtain ⟨w1, w2, w3, w4⟩ := hwf
    by_cases hbA : b = A
    · subst hbA
      simp only [MCTSNode.backup] at hv ⊢
      rw [getD_set_self _ _ _ _ (by rw [w3]; exact hA),
        getD_set_self _ _ _ _ (by rw [w2]; exact hA)]
    · simp only [MCTSNode.backup] at hv ⊢
      rw [getD_set_ne _ _ _ _ _ (fun hh => hbA hh.symm),
        getD_set_ne _ _ _ _ _ (fun hh => hbA hh.symm)]
      exact hag m b (by
        intro hmem
        rcases List.mem_cons.mp hmem with heq | hmem2
        · exact hbA (by injection heq with h1 h2)
        · exact hmb hmem2) hv
  · rw [h] at hv ⊢
    exact hag m b (by
      intro hmem
      rcases List.mem_cons.mp hmem with heq | hmem2
      · exact hm (by injection heq with h1 h2)
      · exact hmb hmem2) hv

theorem slu_WF {σ κ ι : Type} [Inhabited σ] [DecidableEq κ] (env : Env σ κ ι) :
    ∀ (fuel : Nat) (ag : AgentState σ κ) (nid : Nat), AgentWF ag →
      AgentWF (selectLeafAndUpdate env fuel ag nid).1 := by
  intro fuel
  induction fuel with
  | zero =>
    intro ag nid hag
    by_cases h1 : (ag.getNode nid).terminal = true
    · rw [slu_terminal_eq env 0 ag nid h1]
      split
      · exact hag
      · exact hag
    · replace h1 : (ag.getNode nid).terminal = false := by simpa using h1
      by_cases h2 : (ag.getNode nid).is_leaf_node = true
      · rw [slu_leaf_eq env 0 ag nid h1 h2]
        exact AgentWF_setNode _ _ _ hag (hag nid)
      · replace h2 : (ag.getNode nid).is_leaf_node = false := by simpa using h2
        rw [slu_zero_eq env ag nid h1 h2]
        exact hag
  | succ f ih =>
    intro ag nid hag
    by_cases h1 : (ag.getNode nid).terminal = true
    · rw [slu_terminal_eq env (f + 1) ag nid h1]
      split
      · exact hag
      · exact hag
    · replace h1 : (ag.getNode nid).terminal = false := by simpa using h1
      by_cases h2 : (ag.getNode nid).is_leaf_node = true
      · rw [slu_leaf_eq env (f + 1) ag nid h1 h2]
        exact AgentWF_setNode _ _ _ hag (hag nid)
      · replace h2 : (ag.getNode nid).is_leaf_node = false := by simpa using h2
        rw [slu_rec_eq env f ag nid h1 h2]
        have hag1 : AgentWF (ag.setNode nid
            ((ag.getNode nid).incVisit ((ag.getNode nid).chosenAction env))) :=
          AgentWF_setNode _ _ _ hag (incVisit_wf _ _ (hag nid))
        have hagc : AgentWF (sluStep1 env ag nid).1 :=
          childOp_WF env _ nid ((ag.getNode nid).chosenAction env) hag1
        have hin : AgentWF (sluInner env f ag nid).1 :=
          ih (sluStep1 env ag nid).1 (sluStep1 env ag nid).2 hagc
        exact AgentWF_setNode _ _ _ hin (backup_wf _ _ _ (hin nid))

theorem slu_SumOK {σ κ ι : Type} [Inhabited σ] [DecidableEq κ] (env : Env σ κ ι) :
    ∀ (fuel : Nat) (ag : AgentState σ κ) (nid : Nat), AgentWF ag → SumOK ag →
      SumOK (selectLeafAndUpdate env fuel ag nid).1 := by
  intro fuel
  induction fuel with
  | zero =>
    intro ag nid hag hsum
    by_cases h1 : (ag.getNode nid).terminal = true
    · rw [slu_terminal_eq env 0 ag nid h1]
      split
      · exact hsum
      · exact hsum
    · replace h1 : (ag.getNode nid).terminal = false := by simpa using h1
      by_cases h2 : (ag.getNode nid).is_leaf_node = true
      · rw [slu_leaf_eq env 0 ag nid h1 h2]
        exact SumOK_setNode _ _ _ hsum (hsum nid)
      · replace h2 : (ag.getNode nid).is_leaf_node = false := by simpa using h2
        rw [slu_zero_eq env ag nid h1 h2]
        exact hsum
  | succ f ih =>
    intro ag nid hag hsum
    by_cases h1 : (ag.getNode nid).terminal = true
    · rw [slu_terminal_eq env (f + 1) ag nid h1]
      split
      · exact hsum
      · exact hsum
    · replace h1 : (ag.getNode nid).terminal = false := by simpa using h1
      by_cases h2 : (ag.getNode nid).is_leaf_node = true
      · rw [slu_leaf_eq env (f + 1) ag nid h1 h2]
        exact SumOK_setNode _ _ _ hsum (hsum nid)
      · replace h2 : (ag.getNode nid).is_leaf_node = false := by simpa using h2
        rw [slu_rec_eq env f ag nid h1 h2]
        have hA : (ag.getNode nid).chosenAction env < action_count :=
          chosenAction_lt env _ (hag nid).2.2.1
        have hag1 : AgentWF (ag.setNode nid
            ((ag.getNode nid).incVisit ((ag.getNode nid).chosenAction env))) :=
          AgentWF_setNode _ _ _ hag (incVisit_wf _ _ (hag nid))
        have hsum1 : SumOK (ag.setNode nid
            ((ag.getNode nid).incVisit ((ag.getNode nid).chosenAction env))) :=
          SumOK_setNode _ _ _ hsum (incVisit_sumOK _ _ (hsum nid) (by rw [(hag nid).1]; exact hA))
        have hagc : AgentWF (sluStep1 env ag nid).1 :=
          childOp_WF env _ nid ((ag.getNode nid).chosenAction env) hag1
        have hsumc : SumOK (sluStep1 env ag nid).1 :=
          childOp_SumOK env _ nid ((ag.getNode nid).chosenAction env) hsum1
        have hin : SumOK (sluInner env f ag nid).1 :=
          ih (sluStep1 env ag nid).1 (sluStep1 env ag nid).2 hagc hsumc
        exact SumOK_setNode _ _ _ hin (backup_sumOK _ _ _ (hin nid))

end MctsNnCube

namespace MctsNnCube

theorem MeanOK_setNode_stats4 {σ κ : Type} [Inhabited σ] (ag : AgentState σ κ) (nid : Nat)
    (n : MCTSNode σ) (E : List (Nat × Nat)) (h4 : stats4 n = stats4 (ag.getNode nid))
    (hag : MeanOKExcept ag E) : MeanOKExcept (ag.setNode nid n) E := by
  intro m b hmb hv
  by_cases hlen : nid < ag.nodes.length
  · rcases getNode_setNode_cases ag nid m n hlen with ⟨hm, h⟩ | ⟨hm, h⟩
    · subst hm
      rw [h] at hv ⊢
      have e : n.visit_counts = (ag.getNode m).visit_counts := congrArg (fun p => p.2.1) h4
      rw [e] at hv
      exact stats4_mean_transfer n (ag.getNode m) h4 b (hag m b hmb hv)
    · rw [h] at hv ⊢
      exact hag m b hmb hv
  · rw [getNode_setNode_oob _ _ _ _ (Nat.le_of_not_lt hlen)] at hv ⊢
    exact hag m b hmb hv

/-- The central backup invariant: one recursive simulation step keeps the
`mean == total / visits` identity outside the caller's own pending pairs,
shared transposition re-entries included. -/
theorem slu_MeanOK {σ κ ι : Type} [Inhabited σ] [DecidableEq κ] (env : Env σ κ ι) :
    ∀ (fuel : Nat) (ag : AgentState σ κ) (nid : Nat) (E : List (Nat × Nat)), AgentWF ag →
      MeanOKExcept ag E → MeanOKExcept (selectLeafAndUpdate env fuel ag nid).1 E := by
  intro fuel
  induction fuel with
  | zero =>
    intro ag nid E hag hmean
    by_cases h1 : (ag.getNode nid).terminal = true
    · rw [slu_terminal_eq env 0 ag nid h1]
      split
      · exact hmean
      · exact hmean
    · replace h1 : (ag.getNode nid).terminal = false := by simpa using h1
      by_cases h2 : (ag.getNode nid).is_leaf_node = true
      · rw [slu_leaf_eq env 0 ag nid h1 h2]
        exact MeanOK_setNode_stats4 _ _ _ _ rfl hmean
      · replace h2 : (ag.getNode nid).is_leaf_node = false := by simpa using h2
        rw [slu_zero_eq env ag nid h1 h2]
        exact hmean
  | succ f ih =>
    intro ag nid E hag hmean
    by_cases h1 : (ag.getNode nid).terminal = true
    · rw [slu_terminal_eq env (f + 1) ag nid h1]
      split
      · exact hmean
      · exact hmean
    · replace h1 : (ag.getNode nid).terminal = false := by simpa using h1
      by_cases h2 : (ag.getNode nid).is_leaf_node = true
      · rw [slu_leaf_eq env (f + 1) ag nid h1 h2]
        exact MeanOK_setNode_stats4 _ _ _ _ rfl hmean
      · replace h2 : (ag.getNode nid).is_leaf_node = false := by simpa using h2
        rw [slu_rec_eq env f ag nid h1 h2]
        have hlen : nid < ag.nodes.length := lt_length_of_not_terminal ag nid h1
        have hA : (ag.getNode nid).chosenAction env < action_count :=
          chosenAction_lt env _ (hag nid).2.2.1
        have hag1 : AgentWF (ag.setNode nid
            ((ag.getNode nid).incVisit ((ag.getNode nid).chosenAction env))) :=
          AgentWF_setNode _ _ _ hag (incVisit_wf _ _ (hag nid))
        have hmean1 := MeanOK_incVisit ag nid ((ag.getNode nid).chosenAction env) E hlen hmean
        have hagc : AgentWF (sluStep1 env ag nid).1 :=
          childOp_WF env _ nid ((ag.getNode nid).chosenAction env) hag1
        have hmeanc : MeanOKExcept (sluStep1 env ag nid).1
            ((nid, (ag.getNode nid).chosenAction env) :: E) :=
          childOp_MeanOK env _ nid ((ag.getNode nid).chosenAction env) _ hmean1
        have hin : MeanOKExcept (sluInner env f ag nid).1
            ((nid, (ag.getNode nid).chosenAction env) :: E) :=
          ih (sluStep1 env ag nid).1 (sluStep1 env ag nid).2 _ hagc hmeanc
        have hinwf : AgentWF (sluInner env f ag nid).1 :=
          slu_WF env f (sluStep1 env ag nid).1 (sluStep1 env ag nid).2 hagc
        have hlen2 : nid < (sluInner env f ag nid).1.nodes.length := by
          have e1 : (ag.setNode nid
              ((ag.getNode nid).incVisit ((ag.getNode nid).chosenAction env))).nodes.length =
              ag.nodes.length := by
            simp [AgentState.setNode]
          have l1 := (childOp_proj env
            (ag.setNode nid ((ag.getNode nid).incVisit ((ag.getNode nid).chosenAction env)))
            nid ((ag.getNode nid).chosenAction env)).2.2.2.2.2.2
          have l2 := (slu_proj env f (sluStep1 env ag nid).1 (sluStep1 env ag nid).2).2.2.2.2
          simp only [sluInner, sluStep1] at l2 ⊢
          omega
        exact MeanOK_backup _ _ _ _ _ hlen2 (hinwf nid) hin hA

end MctsNnCube

namespace MctsNnCube

/-! ### The invariants hold from construction through every search -/

theorem agentInit_len {σ κ ι : Type} [Inhabited σ] [DecidableEq κ] (env : Env σ κ ι)
    (noise : List ℚ) (s : σ) (md : Nat) (cp g : ℚ) :
    (agentInit env noise s md cp g : AgentState σ κ).nodes.length = 1 := by
  simp [agentInit]

theorem agentInit_WF {σ κ ι : Type} [Inhabited σ] [DecidableEq κ] (env : Env σ κ ι)
    (noise : List ℚ) (s : σ) (md : Nat) (cp g : ℚ) :
    AgentWF (agentInit env noise s md cp g : AgentState σ κ) := by
  intro m
  cases m with
  | zero => exact mkNode_wf env cp s
  | succ k =>
    rw [getNode_default _ _ (by rw [agentInit_len]; omega)]
    exact default_node_wf

theorem agentInit_SumOK {σ κ ι : Type} [Inhabited σ] [DecidableEq κ] (env : Env σ κ ι)
    (noise : List ℚ) (s : σ) (md : Nat) (cp g : ℚ) :
    SumOK (agentInit env noise s md cp g : AgentState σ κ) := by
  intro m
  cases m with
  | zero =>
    have h4 : stats4 ((agentInit env noise s md cp g : AgentState σ κ).getNode 0) = zeroStats := by
      have := mkNode_stats env cp s
      exact this
    exact stats4_zero_sumOK _ h4
  | succ k =>
    rw [getNode_default _ _ (by rw [agentInit_len]; omega)]
    exact stats4_zero_sumOK _ default_node_stats

theorem agentInit_MeanOK {σ κ ι : Type} [Inhabited σ] [DecidableEq κ] (env : Env σ κ ι)
    (noise : List ℚ) (s : σ) (md : Nat) (cp g : ℚ) :
    MeanOKExcept (agentInit env noise s md cp g : AgentState σ κ) [] := by
  intro m b _ hv
  cases m with
  | zero =>
    have h4 : stats4 ((agentInit env noise s md cp g : AgentState σ κ).getNode 0) = zeroStats := by
      exact mkNode_stats env cp s
    rw [stats4_zero_visits _ h4 b] at hv
    exact absurd hv (by omega)
  | succ k =>
    rw [getNode_default _ _ (by rw [agentInit_len]; omega)] at hv
    rw [stats4_zero_visits _ default_node_stats b] at hv
    exact absurd hv (by omega)

theorem search_inv {σ κ ι : Type} [Inhabited σ] [DecidableEq κ] (env : Env σ κ ι) :
    ∀ (steps : Nat) (ag : AgentState σ κ), AgentWF ag → SumOK ag → MeanOKExcept ag [] →
      AgentWF (search env steps ag) ∧ SumOK (search env steps ag) ∧
        MeanOKExcept (search env steps ag) [] := by
  intro steps
  induction steps with
  | zero =>
    intro ag h1 h2 h3
    exact ⟨h1, h2, h3⟩
  | succ k ih =>
    intro ag h1 h2 h3
    rw [search]
    exact ih (searchStep env ag)
      (slu_WF env ag.max_depth ag ag.initial_node h1)
      (slu_SumOK env ag.max_depth ag ag.initial_node h1 h2)
      (slu_MeanOK env ag.max_depth ag ag.initial_node [] h1 h3)

end MctsNnCube

namespace MctsNnCube

/-! ### Concrete fixtures for witnesses and counterexamples -/

/-- A small non-terminal environment: states are naturals, no state is ever
terminal, the oracle returns uniform priors `1/3` and value `1/10`. -/
def toyEnv : Env Nat Nat Nat :=
  { next := fun s a => s + a + 1,
    key := fun s => s,
    done := fun _ => false,
    inputArray := fun s => s,
    oracle := fun _ => (List.replicate action_count (1/3), 1/10),
    sqrtFn := fun _ => 1,
    powFn := fun x _ => x }

/-- A fixed "Dirichlet sample" used by the concrete scenarios. -/
def toyNoise : List ℚ := List.replicate action_count (1/3)

/-- The same toy environment with every state terminal. -/
def termEnv : Env Nat Nat Nat :=
  { toyEnv with done := fun _ => true }

/-! ### C6 -/

/-- C6: after any finite number of completed simulations from a freshly
initialized root, every non-terminal node satisfies
`total_visit_counts = sum(visit_counts)`, and for every action with positive
visit count `mean_action_values[a] = total_action_values[a] / visit_counts[a]`
holds exactly — including shared transposition nodes re-entered within a
single simulation. -/
theorem claim_C6_stats_invariant {σ κ ι : Type} [Inhabited σ] [DecidableEq κ]
    (env : Env σ κ ι) (noise : List ℚ) (s : σ) (md : Nat) (cp g : ℚ) (steps nid a : Nat)
    (_h : ((search env steps (agentInit env noise s md cp g)).getNode nid).terminal = false) :
    ((search env steps (agentInit env noise s md cp g)).getNode nid).total_visit_counts =
      ((search env steps (agentInit env noise s md cp g)).getNode nid).visit_counts.sum ∧
    (0 < ((search env steps (agentInit env noise s md cp g)).getNode nid).visit_counts.getD a 0 →
      ((search env steps (agentInit env noise s md cp g)).getNode nid).mean_action_values.getD a 0 =
        ((search env steps (agentInit env noise s md cp g)).getNode nid).total_action_values.getD a 0 /
          (((search env steps (agentInit env noise s md cp g)).getNode nid).visit_counts.getD a 0 : ℚ)) := by
  obtain ⟨hwf, hsum, hmean⟩ := search_inv env steps (agentInit env noise s md cp g)
    (agentInit_WF env noise s md cp g) (agentInit_SumOK env noise s md cp g)
    (agentInit_MeanOK env noise s md cp g)
  exact ⟨hsum nid, fun hv => hmean nid a (List.not_mem_nil _) hv⟩

/-- Witness for C6 at a concrete run: three simulations in the toy
environment, root node, action 0. -/
theorem claim_C6_witness :
    ((search toyEnv 3 (agentInit toyEnv toyNoise 0 2 1 (1/2))).getNode 0).terminal = false ∧
    (((search toyEnv 3 (agentInit toyEnv toyNoise 0 2 1 (1/2))).getNode 0).total_visit_counts =
      ((search toyEnv 3 (agentInit toyEnv toyNoise 0 2 1 (1/2))).getNode 0).visit_counts.sum ∧
    (0 < ((search toyEnv 3 (agentInit toyEnv toyNoise 0 2 1 (1/2))).getNode 0).visit_counts.getD 0 0 →
      ((search toyEnv 3 (agentInit toyEnv toyNoise 0 2 1 (1/2))).getNode 0).mean_action_values.getD 0 0 =
        ((search toyEnv 3 (agentInit toyEnv toyNoise 0 2 1 (1/2))).getNode 0).total_action_values.getD 0 0 /
          (((search toyEnv 3 (agentInit toyEnv toyNoise 0 2 1 (1/2))).getNode 0).visit_counts.getD 0 0 : ℚ))) :=
  ⟨by decide, claim_C6_stats_invariant toyEnv toyNoise 0 2 1 (1/2) 3 0 0 (by decide)⟩

end MctsNnCube

namespace MctsNnCube

/-! ### C5 -/

theorem getD_zipWith_add (l l2 : List ℚ) (a : Nat) (h : a < l.length) (h2 : a < l2.length) :
    (List.zipWith (fun x y => x + y) l l2).getD a 0 = l.getD a 0 + l2.getD a 0 := by
  induction l generalizing l2 a with
  | nil => simp at h
  | cons x xs ih =>
    cases l2 with
    | nil => simp at h2
    | cons y ys =>
      cases a with
      | zero => rfl
      | succ b =>
        simpa using ih ys b (by simpa using h) (by simpa using h2)

theorem getD_map_range (f : Nat → ℚ) : ∀ (n a : Nat), a < n →
    ((List.range n).map f).getD a 0 = f a := by
  intro n
  induction n with
  | zero => omega
  | succ m ih =>
    intro a h
    rw [List.range_succ, List.map_append]
    by_cases ha : a < m
    · rw [getD_append_left _ _ _ _ (by simpa using ha)]
      exact ih a ha
    · have ham : a = m := by omega
      subst ham
      have hl : ((List.range a).map f).length = a := by simp
      calc ((List.range a).map f ++ [f a]).getD a 0
          = ((List.range a).map f ++ f a :: []).getD ((List.range a).map f).length 0 := by rw [hl]
        _ = f a := getD_append_len _ _ _ _

/-- The selection-score formula exactly as the spec states it (§4.3):
`score(a) = mean_action_value[a] + value_estimate * c_puct * sqrt(total_visits)
* prior_probabilities[a] / (1 + visit_counts[a])`. -/
def scoreSpec {σ κ ι : Type} (env : Env σ κ ι) (n : MCTSNode σ) (a : Nat) : ℚ :=
  n.mean_action_values.getD a 0 +
    n.node_value * n.c_puct * env.sqrtFn n.total_visit_counts *
      ((n.prior_probabilities.getD []).getD a 0) / (1 + (n.visit_counts.getD a 0 : ℚ))

/-- C5: for every non-terminal, already-visited node, the selection scores the
program computes equal the spec's formula (exploration term scaled by the
node's own value estimate), and the chosen action is their argmax with ties
broken by the lowest action index. -/
theorem claim_C5_selection_score {σ κ ι : Type} (env : Env σ κ ι) (n : MCTSNode σ)
    (_h1 : n.terminal = false) (_h2 : n.is_leaf_node = false)
    (hlen : n.mean_action_values.length = action_count) :
    (∀ a, a < action_count → (n.selection_scores env).getD a 0 = scoreSpec env n a) ∧
    n.chosenAction env < action_count ∧
    (∀ a, a < action_count → scoreSpec env n a ≤ scoreSpec env n (n.chosenAction env)) ∧
    (∀ a, a < n.chosenAction env → scoreSpec env n a < scoreSpec env n (n.chosenAction env)) := by
  have hslen : (n.selection_scores env).length = action_count := selection_scores_length env n hlen
  have hform : ∀ a, a < action_count → (n.selection_scores env).getD a 0 = scoreSpec env n a := by
    intro a ha
    unfold MCTSNode.selection_scores scoreSpec
    rw [getD_zipWith_add _ _ a (by rw [hlen]; exact ha)
      (by simpa [MCTSNode.upper_confidence_bounds] using ha)]
    unfold MCTSNode.upper_confidence_bounds
    rw [getD_map_range _ action_count a ha]
  have hne : n.selection_scores env ≠ [] := by
    intro hnil
    rw [hnil] at hslen
    simp [action_count] at hslen
  obtain ⟨hb, hmax, hfirst⟩ := argmaxList_spec (n.selection_scores env) hne
  rw [hslen] at hb hmax
  have hchosen : n.chosenAction env = argmaxList (n.selection_scores env) := rfl
  refine ⟨hform, by rw [hchosen]; exact hb, ?_, ?_⟩
  · intro a ha
    rw [← hform a ha, ← hform _ (by rw [hchosen]; exact hb)]
    exact hmax a ha
  · intro a ha
    have ha12 : a < action_count := lt_trans ha (by rw [hchosen] at *; exact hb)
    rw [← hform a ha12, ← hform _ (by rw [hchosen]; exact hb)]
    exact hfirst a ha

/-- The agent state after one simulation in the toy environment (the root's
first visit has been consumed as its own leaf evaluation). -/
def toyAg1 : AgentState Nat Nat := search toyEnv 1 (agentInit toyEnv toyNoise 0 2 1 (1/2))

/-- Witness for C5 at the concrete toy root after one simulation. -/
theorem claim_C5_witness :
    (toyAg1.getNode 0).terminal = false ∧ (toyAg1.getNode 0).is_leaf_node = false ∧
    (toyAg1.getNode 0).mean_action_values.length = action_count ∧
    ((∀ a, a < action_count → ((toyAg1.getNode 0).selection_scores toyEnv).getD a 0 =
        scoreSpec toyEnv (toyAg1.getNode 0) a) ∧
      (toyAg1.getNode 0).chosenAction toyEnv < action_count ∧
      (∀ a, a < action_count → scoreSpec toyEnv (toyAg1.getNode 0) a ≤
        scoreSpec toyEnv (toyAg1.getNode 0) ((toyAg1.getNode 0).chosenAction toyEnv)) ∧
      (∀ a, a < (toyAg1.getNode 0).chosenAction toyEnv →
        scoreSpec toyEnv (toyAg1.getNode 0) a <
          scoreSpec toyEnv (toyAg1.getNode 0) ((toyAg1.getNode 0).chosenAction toyEnv))) :=
  ⟨by decide, by decide, by decide,
    claim_C5_selection_score toyEnv (toyAg1.getNode 0) (by decide) (by decide) (by decide)⟩

end MctsNnCube

namespace MctsNnCube

/-! ### C10 -/

/-- C10: a simulate call with depth budget 0 on a non-terminal, already-visited
node returns the fixed max-depth penalty `0.0` and leaves the whole agent
state — every node's statistics and children, the table, the counters —
unchanged: no selection, no child creation, no backup. -/
theorem claim_C10_depth_zero_frame {σ κ ι : Type} [Inhabited σ] [DecidableEq κ]
    (env : Env σ κ ι) (ag : AgentState σ κ) (nid : Nat)
    (h1 : (ag.getNode nid).terminal = false) (h2 : (ag.getNode nid).is_leaf_node = false) :
    selectLeafAndUpdate env 0 ag nid = (ag, max_depth_value) ∧ max_depth_value = 0 :=
  ⟨slu_zero_eq env ag nid h1 h2, rfl⟩

/-- Witness for C10 at the toy root after one simulation. -/
theorem claim_C10_witness :
    (toyAg1.getNode 0).terminal = false ∧ (toyAg1.getNode 0).is_leaf_node = false ∧
    (selectLeafAndUpdate toyEnv 0 toyAg1 0 = (toyAg1, max_depth_value) ∧ max_depth_value = 0) :=
  ⟨by decide, by decide, claim_C10_depth_zero_frame toyEnv toyAg1 0 (by decide) (by decide)⟩

/-! ### C7 -/

/-- C7: a simulate call reaching a terminal node returns `1.0` and records
`max_depth - depth_budget` into the shortest-path statistic, kept as the
minimum over all such calls; `stats('shortest_path')` returns the tracked
minimum when it is at most `max_depth` and the sentinel `-1` otherwise, and a
freshly initialized agent (no simulation yet) reports the sentinel. -/
theorem claim_C7_shortest_path {σ κ ι : Type} [Inhabited σ] [DecidableEq κ]
    (env : Env σ κ ι) (ag : AgentState σ κ) (fuel nid : Nat)
    (h : (ag.getNode nid).terminal = true) :
    (selectLeafAndUpdate env fuel ag nid).2 = 1 ∧
    (selectLeafAndUpdate env fuel ag nid).1.shortest_path =
      min ag.shortest_path ((ag.max_depth : ℤ) - (fuel : ℤ)) ∧
    statsShortestPath (selectLeafAndUpdate env fuel ag nid).1 =
      (if min ag.shortest_path ((ag.max_depth : ℤ) - (fuel : ℤ)) ≤ (ag.max_depth : ℤ)
        then min ag.shortest_path ((ag.max_depth : ℤ) - (fuel : ℤ)) else -1) ∧
    (∀ (noise : List ℚ) (s : σ) (md : Nat) (cp g : ℚ),
      statsShortestPath (agentInit env noise s md cp g : AgentState σ κ) = -1) := by
  rw [slu_terminal_eq env fuel ag nid h]
  refine ⟨?_, ?_, ?_, ?_⟩
  · split
    · rfl
    · rfl
  · split
    · rename_i hlt
      show (ag.max_depth : ℤ) - (fuel : ℤ) = _
      omega
    · rename_i hlt
      show ag.shortest_path = _
      omega
  · split
    · rename_i hlt
      show (if (ag.max_depth : ℤ) - (fuel : ℤ) ≤ (ag.max_depth : ℤ)
          then (ag.max_depth : ℤ) - (fuel : ℤ) else -1) = _
      have hmin : min ag.shortest_path ((ag.max_depth : ℤ) - (fuel : ℤ)) =
          (ag.max_depth : ℤ) - (fuel : ℤ) := by omega
      rw [hmin]
    · rename_i hlt
      show (if ag.shortest_path ≤ (ag.max_depth : ℤ) then ag.shortest_path else -1) = _
      have hmin : min ag.shortest_path ((ag.max_depth : ℤ) - (fuel : ℤ)) =
          ag.shortest_path := by omega
      rw [hmin]
  · intro noise s md cp g
    show (if ((md : ℤ) + 1 : ℤ) ≤ (md : ℤ) then ((md : ℤ) + 1) else -1) = -1
    rw [if_neg (by omega)]

/-- The terminal toy agent: the initial state is already solved. -/
def termAg : AgentState Nat Nat := agentInit termEnv toyNoise 5 2 1 (1/2)

/-- Witness for C7 on the terminal toy agent with depth budget 2. -/
theorem claim_C7_witness :
    (termAg.getNode 0).terminal = true ∧
    ((selectLeafAndUpdate termEnv 2 termAg 0).2 = 1 ∧
    (selectLeafAndUpdate termEnv 2 termAg 0).1.shortest_path =
      min termAg.shortest_path ((termAg.max_depth : ℤ) - (2 : ℤ)) ∧
    statsShortestPath (selectLeafAndUpdate termEnv 2 termAg 0).1 =
      (if min termAg.shortest_path ((termAg.max_depth : ℤ) - (2 : ℤ)) ≤ (termAg.max_depth : ℤ)
        then min termAg.shortest_path ((termAg.max_depth : ℤ) - (2 : ℤ)) else -1) ∧
    (∀ (noise : List ℚ) (s : Nat) (md : Nat) (cp g : ℚ),
      statsShortestPath (agentInit termEnv noise s md cp g : AgentState Nat Nat) = -1)) :=
  ⟨by decide, claim_C7_shortest_path termEnv termAg 2 0 (by decide)⟩

end MctsNnCube

namespace MctsNnCube

/-! ### C4 -/

theorem sluInner_len {σ κ ι : Type} [Inhabited σ] [DecidableEq κ] (env : Env σ κ ι)
    (f : Nat) (ag : AgentState σ κ) (nid : Nat) :
    ag.nodes.length ≤ (sluInner env f ag nid).1.nodes.length := by
  have l1 := (childOp_proj env
    (ag.setNode nid ((ag.getNode nid).incVisit ((ag.getNode nid).chosenAction env)))
    nid ((ag.getNode nid).chosenAction env)).2.2.2.2.2.2
  have l2 := (slu_proj env f (sluStep1 env ag nid).1 (sluStep1 env ag nid).2).2.2.2.2
  have e1 : (ag.setNode nid
      ((ag.getNode nid).incVisit ((ag.getNode nid).chosenAction env))).nodes.length =
      ag.nodes.length := by
    simp [AgentState.setNode]
  simp only [sluInner, sluStep1] at l2 ⊢
  omega

theorem sluInner_gamma {σ κ ι : Type} [Inhabited σ] [DecidableEq κ] (env : Env σ κ ι)
    (f : Nat) (ag : AgentState σ κ) (nid : Nat) :
    (sluInner env f ag nid).1.gamma = ag.gamma := by
  have g1 := (slu_proj env f (sluStep1 env ag nid).1 (sluStep1 env ag nid).2).1
  have g2 := (childOp_proj env
    (ag.setNode nid ((ag.getNode nid).incVisit ((ag.getNode nid).chosenAction env)))
    nid ((ag.getNode nid).chosenAction env)).1
  simp only [sluInner]
  rw [g1]
  simp only [sluStep1]
  rw [g2]
  rfl

theorem sluInner_WF {σ κ ι : Type} [Inhabited σ] [DecidableEq κ] (env : Env σ κ ι)
    (f : Nat) (ag : AgentState σ κ) (nid : Nat) (hag : AgentWF ag) :
    AgentWF (sluInner env f ag nid).1 := by
  simp only [sluInner, sluStep1]
  exact slu_WF env f _ _
    (childOp_WF env _ nid ((ag.getNode nid).chosenAction env)
      (AgentWF_setNode _ _ _ hag (incVisit_wf _ _ (hag nid))))

/-- Counterexample to C4 as stated: in the toy run the child's recursive
simulate call returns `1/10`, the caller adds `gamma * 1/10 = 1/20` into its
statistics and returns `1/20` — the gamma-multiplied product, not the
undiscounted pre-multiplication child value. -/
theorem claim_C4_counterexample :
    (sluInner toyEnv 1 toyAg1 0).2 = 1/10 ∧
    (selectLeafAndUpdate toyEnv 2 toyAg1 0).2 = 1/20 ∧
    ¬((selectLeafAndUpdate toyEnv 2 toyAg1 0).2 = (sluInner toyEnv 1 toyAg1 0).2) :=
  ⟨by decide, by decide, by decide⟩

/-- C4 amended: in the recursive step the child's returned value is multiplied
by gamma, the product is added into `total_action_values[action]`,
`mean_action_values[action]` is recomputed as total/visits, and the value
returned to this node's own caller is that same gamma-multiplied product (the
discounted value, not the pre-multiplication one). -/
theorem claim_C4_amended_backup {σ κ ι : Type} [Inhabited σ] [DecidableEq κ]
    (env : Env σ κ ι) (f : Nat) (ag : AgentState σ κ) (nid : Nat)
    (h1 : (ag.getNode nid).terminal = false) (h2 : (ag.getNode nid).is_leaf_node = false)
    (hag : AgentWF ag) :
    (selectLeafAndUpdate env (f + 1) ag nid).2 = ag.gamma * (sluInner env f ag nid).2 ∧
    ((selectLeafAndUpdate env (f + 1) ag nid).1.getNode nid).total_action_values.getD
        ((ag.getNode nid).chosenAction env) 0 =
      ((sluInner env f ag nid).1.getNode nid).total_action_values.getD
        ((ag.getNode nid).chosenAction env) 0 + ag.gamma * (sluInner env f ag nid).2 ∧
    ((selectLeafAndUpdate env (f + 1) ag nid).1.getNode nid).mean_action_values.getD
        ((ag.getNode nid).chosenAction env) 0 =
      ((selectLeafAndUpdate env (f + 1) ag nid).1.getNode nid).total_action_values.getD
          ((ag.getNode nid).chosenAction env) 0 /
        (((selectLeafAndUpdate env (f + 1) ag nid).1.getNode nid).visit_counts.getD
          ((ag.getNode nid).chosenAction env) 0 : ℚ) := by
  have hlen : nid < ag.nodes.length := lt_length_of_not_terminal ag nid h1
  have hlen2 : nid < (sluInner env f ag nid).1.nodes.length :=
    lt_of_lt_of_le hlen (sluInner_len env f ag nid)
  have hg := sluInner_gamma env f ag nid
  have hwf3 : nodeWF ((sluInner env f ag nid).1.getNode nid) := sluInner_WF env f ag nid hag nid
  obtain ⟨w1, w2, w3, w4⟩ := hwf3
  have hA : (ag.getNode nid).chosenAction env < action_count :=
    chosenAction_lt env _ (hag nid).2.2.1
  rw [slu_rec_eq env f ag nid h1 h2]
  refine ⟨?_, ?_, ?_⟩
  · show (sluInner env f ag nid).1.gamma * (sluInner env f ag nid).2 = _
    rw [hg]
  · rw [getNode_setNode_self _ _ _ hlen2]
    show (((sluInner env f ag nid).1.getNode nid).total_action_values.set
        ((ag.getNode nid).chosenAction env)
        (((sluInner env f ag nid).1.getNode nid).total_action_values.getD
          ((ag.getNode nid).chosenAction env) 0 +
          (sluInner env f ag nid).1.gamma * (sluInner env f ag nid).2)).getD
        ((ag.getNode nid).chosenAction env) 0 = _
    rw [getD_set_self _ _ _ _ (by rw [w2]; exact hA), hg]
  · rw [getNode_setNode_self _ _ _ hlen2]
    simp only [MCTSNode.backup]
    rw [getD_set_self _ _ _ _ (by rw [w3]; exact hA),
      getD_set_self _ _ _ _ (by rw [w2]; exact hA)]

end MctsNnCube

namespace MctsNnCube

/-- Witness for the amended C4 at the toy root after one simulation. -/
theorem claim_C4_witness :
    (toyAg1.getNode 0).terminal = false ∧ (toyAg1.getNode 0).is_leaf_node = false ∧
    AgentWF toyAg1 ∧
    ((selectLeafAndUpdate toyEnv (1 + 1) toyAg1 0).2 =
        toyAg1.gamma * (sluInner toyEnv 1 toyAg1 0).2 ∧
      ((selectLeafAndUpdate toyEnv (1 + 1) toyAg1 0).1.getNode 0).total_action_values.getD
          ((toyAg1.getNode 0).chosenAction toyEnv) 0 =
        ((sluInner toyEnv 1 toyAg1 0).1.getNode 0).total_action_values.getD
          ((toyAg1.getNode 0).chosenAction toyEnv) 0 +
          toyAg1.gamma * (sluInner toyEnv 1 toyAg1 0).2 ∧
      ((selectLeafAndUpdate toyEnv (1 + 1) toyAg1 0).1.getNode 0).mean_action_values.getD
          ((toyAg1.getNode 0).chosenAction toyEnv) 0 =
        ((selectLeafAndUpdate toyEnv (1 + 1) toyAg1 0).1.getNode 0).total_action_values.getD
            ((toyAg1.getNode 0).chosenAction toyEnv) 0 /
          (((selectLeafAndUpdate toyEnv (1 + 1) toyAg1 0).1.getNode 0).visit_counts.getD
            ((toyAg1.getNode 0).chosenAction toyEnv) 0 : ℚ)) :=
  ⟨by decide, by decide,
    (search_inv toyEnv 1 (agentInit toyEnv toyNoise 0 2 1 (1/2))
      (agentInit_WF toyEnv toyNoise 0 2 1 (1/2)) (agentInit_SumOK toyEnv toyNoise 0 2 1 (1/2))
      (agentInit_MeanOK toyEnv toyNoise 0 2 1 (1/2))).1,
    claim_C4_amended_backup toyEnv 1 toyAg1 0 (by decide) (by decide)
      ((search_inv toyEnv 1 (agentInit toyEnv toyNoise 0 2 1 (1/2))
        (agentInit_WF toyEnv toyNoise 0 2 1 (1/2)) (agentInit_SumOK toyEnv toyNoise 0 2 1 (1/2))
        (agentInit_MeanOK toyEnv toyNoise 0 2 1 (1/2))).1)⟩

end MctsNnCube

namespace MctsNnCube

/-! ### Small equations about node construction and the initializer -/

theorem mkNode_terminal {σ κ ι : Type} (env : Env σ κ ι) (cp : ℚ) (s : σ) :
    (mkNode env cp s).1.terminal = env.done s := by
  unfold mkNode
  by_cases h : env.done s = true
  · rw [if_pos h]
    exact h.symm
  · rw [if_neg h]
    have h2 : env.done s = false := by simpa using h
    exact h2.symm

theorem mkNode_leaf {σ κ ι : Type} (env : Env σ κ ι) (cp : ℚ) (s : σ) :
    (mkNode env cp s).1.is_leaf_node = true := by
  unfold mkNode
  split
  · rfl
  · rfl

theorem mkNode_calls {σ κ ι : Type} (env : Env σ κ ι) (cp : ℚ) (s : σ) :
    (mkNode env cp s).2 = if env.done s then 0 else 1 := by
  unfold mkNode
  split
  · rfl
  · rfl

theorem agentInit_getNode0 {σ κ ι : Type} [Inhabited σ] [DecidableEq κ] (env : Env σ κ ι)
    (noise : List ℚ) (s : σ) (md : Nat) (cp g : ℚ) :
    (agentInit env noise s md cp g : AgentState σ κ).getNode 0 =
      { (mkNode env cp s).1 with
        prior_probabilities := some (mixPrior (env.oracle (env.inputArray s)).1 noise) } := rfl

/-! ### C3 -/

/-- Counterexample to C3 as stated: in the toy run, after exactly one
simulation (`total_steps = 1`) the non-terminal root has all-zero visit
counts, yet `action_probabilities(1)` is *not* the undefined `None` — the
guard tests only the leaf flag, so the normalization divides by the zero
visit sum (in the rational model the quotient collapses to zeros; in numpy it
is a 0/0 divide producing nan). -/
theorem claim_C3_counterexample :
    toyAg1.total_steps = 1 ∧
    (toyAg1.getNode toyAg1.initial_node).terminal = false ∧
    (toyAg1.getNode toyAg1.initial_node).visit_counts.sum = 0 ∧
    ¬(agentActionProbabilities toyEnv toyAg1 1 = none) :=
  ⟨by decide, by decide, by decide, by decide⟩

/-- C3 amended: `action_probabilities` returns `None` exactly when the node is
terminal or still flagged as an unexpanded leaf; when defined with
`inv_temp = 1` it is `visit_counts / visit_counts.sum()`; and the first
simulation of a fresh non-terminal node merely clears the leaf flag without
touching the visit counts — so one simulation later the result is defined
even though every visit count (and hence the normalizing sum) is zero. -/
theorem claim_C3_amended_action_distribution {σ κ ι : Type} [Inhabited σ] [DecidableEq κ]
    (env : Env σ κ ι) :
    (∀ (n : MCTSNode σ) (it : ℚ),
      n.action_probabilities env it = none ↔ (n.terminal = true ∨ n.is_leaf_node = true)) ∧
    (∀ n : MCTSNode σ, n.terminal = false → n.is_leaf_node = false →
      n.action_probabilities env 1 =
        some (n.visit_counts.map fun c => (c : ℚ) / (n.visit_counts.sum : ℚ))) ∧
    (∀ (ag : AgentState σ κ) (nid fuel : Nat), (ag.getNode nid).terminal = false →
      (ag.getNode nid).is_leaf_node = true →
      ((selectLeafAndUpdate env fuel ag nid).1.getNode nid).is_leaf_node = false ∧
      ((selectLeafAndUpdate env fuel ag nid).1.getNode nid).visit_counts =
        (ag.getNode nid).visit_counts) := by
  refine ⟨?_, ?_, ?_⟩
  · intro n it
    by_cases h1 : n.terminal = true
    · simp [MCTSNode.action_probabilities, h1]
    · by_cases h2 : n.is_leaf_node = true
      · simp [MCTSNode.action_probabilities, h2]
      · replace h1 : n.terminal = false := by simpa using h1
        replace h2 : n.is_leaf_node = false := by simpa using h2
        simp only [MCTSNode.action_probabilities, h1, h2]
        rw [if_neg (by simp : ¬((false || false) = true))]
        constructor
        · intro hc
          split at hc
          · simp at hc
          · simp at hc
        · intro hc
          rcases hc with hc | hc
          · simp at hc
          · simp at hc
  · intro n h1 h2
    simp [MCTSNode.action_probabilities, h1, h2]
  · intro ag nid fuel h1 h2
    rw [slu_leaf_eq env fuel ag nid h1 h2]
    rw [getNode_setNode_self _ _ _ (lt_length_of_not_terminal ag nid h1)]
    exact ⟨rfl, rfl⟩

/-- Witness for the amended C3 at the toy root after one simulation. -/
theorem claim_C3_witness :
    ((toyAg1.getNode 0).terminal = false ∧ (toyAg1.getNode 0).is_leaf_node = false) ∧
    (toyAg1.getNode 0).action_probabilities toyEnv 1 =
      some ((toyAg1.getNode 0).visit_counts.map fun c =>
        (c : ℚ) / ((toyAg1.getNode 0).visit_counts.sum : ℚ)) :=
  ⟨⟨by decide, by decide⟩,
    (claim_C3_amended_action_distribution toyEnv).2.1 (toyAg1.getNode 0) (by decide) (by decide)⟩

/-! ### C2 -/

/-- Counterexample to C2 as stated: constructing the agent on an
already-terminal initial state makes one oracle call, not zero, and the
terminal root does *not* stay without prior probabilities — the root-noise
overwrite runs unconditionally. -/
theorem claim_C2_counterexample :
    (termAg.getNode termAg.initial_node).terminal = true ∧
    termAg.oracle_calls = 1 ∧
    ¬((termAg.getNode termAg.initial_node).prior_probabilities = none) :=
  ⟨by decide, by decide, by decide⟩

/-- C2 amended: for an already-terminal initial state, constructing the agent
makes exactly one oracle call (the unconditional root-noise overwrite; the
node constructor itself makes none), sets the terminal root's
`prior_probabilities` to `0.75 * oracle + 0.25 * noise`, and
`action_distribution` returns the undefined result `None`. -/
theorem claim_C2_amended_terminal_init {σ κ ι : Type} [Inhabited σ] [DecidableEq κ]
    (env : Env σ κ ι) (noise : List ℚ) (s : σ) (md : Nat) (cp g : ℚ)
    (h : env.done s = true) :
    (agentInit env noise s md cp g : AgentState σ κ).oracle_calls = 1 ∧
    ((agentInit env noise s md cp g : AgentState σ κ).getNode
      (agentInit env noise s md cp g : AgentState σ κ).initial_node).terminal = true ∧
    ((agentInit env noise s md cp g : AgentState σ κ).getNode
      (agentInit env noise s md cp g : AgentState σ κ).initial_node).prior_probabilities =
      some (mixPrior (env.oracle (env.inputArray s)).1 noise) ∧
    (∀ it : ℚ, agentActionProbabilities env (agentInit env noise s md cp g) it = none) := by
  have hterm : ((agentInit env noise s md cp g : AgentState σ κ).getNode 0).terminal = true := by
    rw [agentInit_getNode0]
    show (mkNode env cp s).1.terminal = true
    rw [mkNode_terminal, h]
  refine ⟨?_, hterm, ?_, ?_⟩
  · show (mkNode env cp s).2 + 1 = 1
    rw [mkNode_calls, if_pos h]
  · show ((agentInit env noise s md cp g : AgentState σ κ).getNode 0).prior_probabilities = _
    rw [agentInit_getNode0]
  · intro it
    show ((agentInit env noise s md cp g : AgentState σ κ).getNode 0).action_probabilities env it = none
    simp [MCTSNode.action_probabilities, hterm]

/-- Witness for the amended C2 on the terminal toy environment. -/
theorem claim_C2_witness :
    termEnv.done 5 = true ∧
    ((agentInit termEnv toyNoise 5 2 1 (1/2) : AgentState Nat Nat).oracle_calls = 1 ∧
    ((agentInit termEnv toyNoise 5 2 1 (1/2) : AgentState Nat Nat).getNode
      (agentInit termEnv toyNoise 5 2 1 (1/2) : AgentState Nat Nat).initial_node).terminal = true ∧
    ((agentInit termEnv toyNoise 5 2 1 (1/2) : AgentState Nat Nat).getNode
      (agentInit termEnv toyNoise 5 2 1 (1/2) : AgentState Nat Nat).initial_node).prior_probabilities =
      some (mixPrior (termEnv.oracle (termEnv.inputArray 5)).1 toyNoise) ∧
    (∀ it : ℚ, agentActionProbabilities termEnv (agentInit termEnv toyNoise 5 2 1 (1/2)) it = none)) :=
  ⟨by decide, claim_C2_amended_terminal_init termEnv toyNoise 5 2 1 (1/2) (by decide)⟩

end MctsNnCube

namespace MctsNnCube

/-! ### Branch equations for `child` -/

theorem childOp_hit {σ κ ι : Type} [Inhabited σ] [DecidableEq κ] (env : Env σ κ ι)
    (ag : AgentState σ κ) (nid a c : Nat)
    (h : (ag.getNode nid).children.getD a none = some c) :
    childOp env ag nid a = (ag, c) := by
  simp only [childOp]
  rw [h]

theorem childOp_tablehit {σ κ ι : Type} [Inhabited σ] [DecidableEq κ] (env : Env σ κ ι)
    (ag : AgentState σ κ) (nid a c : Nat)
    (h1 : (ag.getNode nid).children.getD a none = none)
    (h2 : ttLookup ag.transposition_table (env.key (env.next (ag.getNode nid).state a)) = some c) :
    childOp env ag nid a =
      (ag.setNode nid
        { ag.getNode nid with children := (ag.getNode nid).children.set a (some c) }, c) := by
  simp only [childOp]
  rw [h1, h2]

theorem childOp_create {σ κ ι : Type} [Inhabited σ] [DecidableEq κ] (env : Env σ κ ι)
    (ag : AgentState σ κ) (nid a : Nat)
    (h1 : (ag.getNode nid).children.getD a none = none)
    (h2 : ttLookup ag.transposition_table (env.key (env.next (ag.getNode nid).state a)) = none) :
    childOp env ag nid a =
      ({ ag with
          nodes := (ag.nodes ++ [(mkNode env ag.c_puct (env.next (ag.getNode nid).state a)).1]).set
            nid { ag.getNode nid with
                  children := (ag.getNode nid).children.set a (some ag.nodes.length) },
          transposition_table :=
            (env.key (env.next (ag.getNode nid).state a), ag.nodes.length) ::
              ag.transposition_table,
          oracle_calls :=
            ag.oracle_calls + (mkNode env ag.c_puct (env.next (ag.getNode nid).state a)).2 },
       ag.nodes.length) := by
  simp only [childOp]
  rw [h1, h2]
  rfl

/-! ### C8 -/

/-- `advance_to_action` on an already-expanded child: the root pointer moves to
the shared child node, its priors are overwritten with the noised oracle
priors, the shortest-path tracker is reset, and nothing else changes. -/
theorem advance_hit_eq {σ κ ι : Type} [Inhabited σ] [DecidableEq κ] (env : Env σ κ ι)
    (noise : List ℚ) (ag : AgentState σ κ) (action c : Nat)
    (hslot : (ag.getNode ag.initial_node).children.getD action none = some c) :
    advanceToAction env noise ag action =
      { nodes := ag.nodes.set c
          { ag.getNode c with
            prior_probabilities :=
              some (mixPrior (env.oracle (env.inputArray (ag.getNode c).state)).1 noise) },
        transposition_table := ag.transposition_table,
        initial_node := c,
        max_depth := ag.max_depth,
        c_puct := ag.c_puct,
        gamma := ag.gamma,
        total_steps := ag.total_steps,
        shortest_path := (ag.max_depth : ℤ) + 1,
        oracle_calls := ag.oracle_calls + 1 } := by
  simp [advanceToAction, childOp_hit env ag ag.initial_node action c hslot,
    rotationally_randomize, AgentState.setNode]

/-- C8: at construction the (non-terminal) root's priors are overwritten with
`0.75 * oracle + 0.25 * Dirichlet noise` and the shortest-path tracker is set
to the sentinel `max_depth + 1`; `advance_to_action` replaces the root with
`root.child(action)` — for an already-expanded child, the same shared node,
keeping all of its accumulated statistics and every other node untouched —
then reapplies the root noise and resets the tracker. -/
theorem claim_C8_root_noise_and_advance {σ κ ι : Type} [Inhabited σ] [DecidableEq κ]
    (env : Env σ κ ι) :
    (∀ (noise : List ℚ) (s : σ) (md : Nat) (cp g : ℚ), env.done s = false →
      ((agentInit env noise s md cp g : AgentState σ κ).getNode
          (agentInit env noise s md cp g : AgentState σ κ).initial_node).prior_probabilities =
        some (mixPrior (env.oracle (env.inputArray s)).1 noise) ∧
      (agentInit env noise s md cp g : AgentState σ κ).shortest_path = (md : ℤ) + 1) ∧
    (∀ (noise : List ℚ) (ag : AgentState σ κ) (action c : Nat),
      (ag.getNode ag.initial_node).children.getD action none = some c →
      c < ag.nodes.length → (ag.getNode c).terminal = false →
      (advanceToAction env noise ag action).initial_node = c ∧
      ((advanceToAction env noise ag action).getNode c).prior_probabilities =
        some (mixPrior (env.oracle (env.inputArray (ag.getNode c).state)).1 noise) ∧
      (advanceToAction env noise ag action).shortest_path = (ag.max_depth : ℤ) + 1 ∧
      ((advanceToAction env noise ag action).getNode c).visit_counts =
        (ag.getNode c).visit_counts ∧
      ((advanceToAction env noise ag action).getNode c).total_action_values =
        (ag.getNode c).total_action_values ∧
      ((advanceToAction env noise ag action).getNode c).mean_action_values =
        (ag.getNode c).mean_action_values ∧
      ((advanceToAction env noise ag action).getNode c).total_visit_counts =
        (ag.getNode c).total_visit_counts ∧
      ((advanceToAction env noise ag action).getNode c).children = (ag.getNode c).children ∧
      (∀ m, m ≠ c → (advanceToAction env noise ag action).getNode m = ag.getNode m)) := by
  constructor
  · intro noise s md cp g _hdone
    constructor
    · show ((agentInit env noise s md cp g : AgentState σ κ).getNode 0).prior_probabilities = _
      rw [agentInit_getNode0]
    · rfl
  · intro noise ag action c hslot hc _hterm
    rw [advance_hit_eq env noise ag action c hslot]
    have hgc : (AgentState.getNode
        { nodes := ag.nodes.set c
            { ag.getNode c with
              prior_probabilities :=
                some (mixPrior (env.oracle (env.inputArray (ag.getNode c).state)).1 noise) },
          transposition_table := ag.transposition_table,
          initial_node := c,
          max_depth := ag.max_depth,
          c_puct := ag.c_puct,
          gamma := ag.gamma,
          total_steps := ag.total_steps,
          shortest_path := (ag.max_depth : ℤ) + 1,
          oracle_calls := ag.oracle_calls + 1 } c) =
        { ag.getNode c with
          prior_probabilities :=
            some (mixPrior (env.oracle (env.inputArray (ag.getNode c).state)).1 noise) } := by
      show (ag.nodes.set c _).getD c default = _
      exact getD_set_self _ _ _ _ hc
    refine ⟨rfl, ?_, rfl, ?_, ?_, ?_, ?_, ?_, ?_⟩
    · rw [hgc]
    · rw [hgc]
    · rw [hgc]
    · rw [hgc]
    · rw [hgc]
    · rw [hgc]
    · intro m hm
      show (ag.nodes.set c _).getD m default = _
      exact getD_set_ne _ _ _ _ _ (fun hcm => hm hcm.symm)

end MctsNnCube

namespace MctsNnCube

/-! ### C9 -/

/-- C9: `child(action)` is idempotent — repeating the call returns the same
node index and leaves the agent state untouched (no duplicate node, no second
oracle call) — and transposition-sharing: resolving a second parent/action
pair whose outcome has the same canonical key yields the very same node
index, with exactly one node created in total. -/
theorem claim_C9_child_idempotent_sharing {σ κ ι : Type} [Inhabited σ] [DecidableEq κ]
    (env : Env σ κ ι) (ag : AgentState σ κ) (nid1 a1 nid2 a2 : Nat)
    (hn1 : nid1 < ag.nodes.length) (hn2 : nid2 < ag.nodes.length)
    (ha1 : a1 < (ag.getNode nid1).children.length)
    (hs1 : (ag.getNode nid1).children.getD a1 none = none)
    (hs2 : (ag.getNode nid2).children.getD a2 none = none)
    (hne : ¬(nid1 = nid2 ∧ a1 = a2))
    (hkey : env.key (env.next (ag.getNode nid1).state a1) =
      env.key (env.next (ag.getNode nid2).state a2))
    (htab : ttLookup ag.transposition_table
      (env.key (env.next (ag.getNode nid1).state a1)) = none) :
    (childOp env (childOp env ag nid1 a1).1 nid1 a1).1 = (childOp env ag nid1 a1).1 ∧
    (childOp env (childOp env ag nid1 a1).1 nid1 a1).2 = (childOp env ag nid1 a1).2 ∧
    (childOp env (childOp env ag nid1 a1).1 nid2 a2).2 = (childOp env ag nid1 a1).2 ∧
    (childOp env (childOp env ag nid1 a1).1 nid2 a2).1.nodes.length = ag.nodes.length + 1 ∧
    (childOp env (childOp env ag nid1 a1).1 nid2 a2).1.oracle_calls =
      (childOp env ag nid1 a1).1.oracle_calls := by
  have hcr := childOp_create env ag nid1 a1 hs1 htab
  have hsnd : (childOp env ag nid1 a1).2 = ag.nodes.length := by rw [hcr]
  have hnodes : (childOp env ag nid1 a1).1.nodes =
      (ag.nodes ++ [(mkNode env ag.c_puct (env.next (ag.getNode nid1).state a1)).1]).set nid1
        { ag.getNode nid1 with
          children := (ag.getNode nid1).children.set a1 (some ag.nodes.length) } := by
    rw [hcr]
  have htt : (childOp env ag nid1 a1).1.transposition_table =
      (env.key (env.next (ag.getNode nid1).state a1), ag.nodes.length) ::
        ag.transposition_table := by
    rw [hcr]
  have hlen1 : (childOp env ag nid1 a1).1.nodes.length = ag.nodes.length + 1 := by
    rw [hnodes]
    simp
  have hg1 : (childOp env ag nid1 a1).1.getNode nid1 =
      { ag.getNode nid1 with
        children := (ag.getNode nid1).children.set a1 (some ag.nodes.length) } := by
    show (childOp env ag nid1 a1).1.nodes.getD nid1 default = _
    rw [hnodes]
    exact getD_set_self _ _ _ _ (by simp; omega)
  have hslot1 : ((childOp env ag nid1 a1).1.getNode nid1).children.getD a1 none =
      some ag.nodes.length := by
    rw [hg1]
    exact getD_set_self _ _ _ _ ha1
  have hhit := childOp_hit env (childOp env ag nid1 a1).1 nid1 a1 ag.nodes.length hslot1
  have hg2 : ((childOp env ag nid1 a1).1.getNode nid2).state = (ag.getNode nid2).state ∧
      ((childOp env ag nid1 a1).1.getNode nid2).children.getD a2 none = none := by
    by_cases hnn : nid1 = nid2
    · subst hnn
      rw [hg1]
      have ha12 : a1 ≠ a2 := fun hh => hne ⟨rfl, hh⟩
      exact ⟨rfl, by
        show ((ag.getNode nid1).children.set a1 (some ag.nodes.length)).getD a2 none = none
        rw [getD_set_ne _ _ _ _ _ ha12]
        exact hs2⟩
    · have he : (childOp env ag nid1 a1).1.getNode nid2 = ag.getNode nid2 := by
        show (childOp env ag nid1 a1).1.nodes.getD nid2 default = _
        rw [hnodes, getD_set_ne _ _ _ _ _ hnn, getD_append_left _ _ _ _ hn2]
        rfl
      rw [he]
      exact ⟨rfl, hs2⟩
  have hkey2 : env.key (env.next (((childOp env ag nid1 a1).1.getNode nid2)).state a2) =
      env.key (env.next (ag.getNode nid1).state a1) := by
    rw [hg2.1]
    exact hkey.symm
  have htab2 : ttLookup (childOp env ag nid1 a1).1.transposition_table
      (env.key (env.next (((childOp env ag nid1 a1).1.getNode nid2)).state a2)) =
      some ag.nodes.length := by
    rw [htt, hkey2]
    show (if env.key (env.next (ag.getNode nid1).state a1) =
        env.key (env.next (ag.getNode nid1).state a1) then some ag.nodes.length
      else ttLookup ag.transposition_table (env.key (env.next (ag.getNode nid1).state a1))) =
      some ag.nodes.length
    rw [if_pos rfl]
  have hth := childOp_tablehit env (childOp env ag nid1 a1).1 nid2 a2 ag.nodes.length
    hg2.2 htab2
  refine ⟨?_, ?_, ?_, ?_, ?_⟩
  · rw [hhit]
  · rw [hhit, hsnd]
  · rw [hth, hsnd]
  · rw [hth]
    show ((childOp env ag nid1 a1).1.nodes.set nid2 _).length = ag.nodes.length + 1
    rw [List.length_set, hlen1]
  · rw [hth]
    rfl

/-- The toy agent after two simulations: the root (state 0) has child node 1
(state 1) under action 0, and the table maps key 1 to node 1. -/
def toyAg2 : AgentState Nat Nat := search toyEnv 2 (agentInit toyEnv toyNoise 0 2 1 (1/2))

/-- Witness for C9 on the toy agent: the pairs (node 0, action 1) and
(node 1, action 0) both lead to state 2. -/
theorem claim_C9_witness :
    (0 < toyAg2.nodes.length ∧ 1 < toyAg2.nodes.length ∧
      1 < (toyAg2.getNode 0).children.length ∧
      (toyAg2.getNode 0).children.getD 1 none = none ∧
      (toyAg2.getNode 1).children.getD 0 none = none ∧
      ¬((0 : Nat) = 1 ∧ (1 : Nat) = 0) ∧
      toyEnv.key (toyEnv.next (toyAg2.getNode 0).state 1) =
        toyEnv.key (toyEnv.next (toyAg2.getNode 1).state 0) ∧
      ttLookup toyAg2.transposition_table
        (toyEnv.key (toyEnv.next (toyAg2.getNode 0).state 1)) = none) ∧
    ((childOp toyEnv (childOp toyEnv toyAg2 0 1).1 0 1).1 = (childOp toyEnv toyAg2 0 1).1 ∧
    (childOp toyEnv (childOp toyEnv toyAg2 0 1).1 0 1).2 = (childOp toyEnv toyAg2 0 1).2 ∧
    (childOp toyEnv (childOp toyEnv toyAg2 0 1).1 1 0).2 = (childOp toyEnv toyAg2 0 1).2 ∧
    (childOp toyEnv (childOp toyEnv toyAg2 0 1).1 1 0).1.nodes.length =
      toyAg2.nodes.length + 1 ∧
    (childOp toyEnv (childOp toyEnv toyAg2 0 1).1 1 0).1.oracle_calls =
      (childOp toyEnv toyAg2 0 1).1.oracle_calls) :=
  ⟨⟨by decide, by decide, by decide, by decide, by decide, by decide, by decide, by decide⟩,
    claim_C9_child_idempotent_sharing toyEnv toyAg2 0 1 1 0 (by decide) (by decide) (by decide)
      (by decide) (by decide) (by decide) (by decide) (by decide)⟩

/-- Witness for C8: the initializer part on the toy root, and the advance part
on the toy agent's expanded child. -/
theorem claim_C8_witness :
    (toyEnv.done 0 = false ∧
      (((agentInit toyEnv toyNoise 0 2 1 (1/2) : AgentState Nat Nat)).getNode
          ((agentInit toyEnv toyNoise 0 2 1 (1/2) : AgentState Nat Nat)).initial_node).prior_probabilities =
        some (mixPrior (toyEnv.oracle (toyEnv.inputArray 0)).1 toyNoise) ∧
      ((agentInit toyEnv toyNoise 0 2 1 (1/2) : AgentState Nat Nat)).shortest_path =
        ((2 : Nat) : ℤ) + 1) ∧
    ((toyAg2.getNode toyAg2.initial_node).children.getD 0 none = some 1 ∧
      1 < toyAg2.nodes.length ∧ (toyAg2.getNode 1).terminal = false ∧
      ((advanceToAction toyEnv toyNoise toyAg2 0).initial_node = 1 ∧
      ((advanceToAction toyEnv toyNoise toyAg2 0).getNode 1).prior_probabilities =
        some (mixPrior (toyEnv.oracle (toyEnv.inputArray (toyAg2.getNode 1).state)).1 toyNoise) ∧
      (advanceToAction toyEnv toyNoise toyAg2 0).shortest_path = (toyAg2.max_depth : ℤ) + 1 ∧
      ((advanceToAction toyEnv toyNoise toyAg2 0).getNode 1).visit_counts =
        (toyAg2.getNode 1).visit_counts ∧
      ((advanceToAction toyEnv toyNoise toyAg2 0).getNode 1).total_action_values =
        (toyAg2.getNode 1).total_action_values ∧
      ((advanceToAction toyEnv toyNoise toyAg2 0).getNode 1).mean_action_values =
        (toyAg2.getNode 1).mean_action_values ∧
      ((advanceToAction toyEnv toyNoise toyAg2 0).getNode 1).total_visit_counts =
        (toyAg2.getNode 1).total_visit_counts ∧
      ((advanceToAction toyEnv toyNoise toyAg2 0).getNode 1).children =
        (toyAg2.getNode 1).children ∧
      (∀ m, m ≠ 1 → (advanceToAction toyEnv toyNoise toyAg2 0).getNode m =
        toyAg2.getNode m))) :=
  ⟨⟨by decide, (claim_C8_root_noise_and_advance toyEnv).1 toyNoise 0 2 1 (1/2) (by decide)⟩,
    ⟨by decide, by decide, by decide,
      (claim_C8_root_noise_and_advance toyEnv).2 toyNoise toyAg2 0 1 (by decide) (by decide)
        (by decide)⟩⟩

end MctsNnCube

namespace MctsNnCube

/-! ### C1 -/

/-- C1: the name `rotationally_randomize` is not among the module's top-level
bindings, so `MCTSAgent.__init__` — whose first statement applies that global
name — raises `NameError` for every environment, oracle, initial state and
parameter choice, and no constructed agent (hence no search/stats/advance on
it) is ever reachable. -/
theorem claim_C1_constructor_name_error {σ κ ι : Type} [Inhabited σ] [DecidableEq κ] :
    "rotationally_randomize" ∉ mctsModuleGlobals ∧
    (∀ (env : Env σ κ ι) (noise : List ℚ) (s : σ) (md : Nat) (cp g : ℚ),
      mctsAgentInitPy mctsModuleGlobals env noise s md cp g =
        PyOutcome.nameError "rotationally_randomize") ∧
    (∀ (env : Env σ κ ι) (noise : List ℚ) (s : σ) (md : Nat) (cp g : ℚ)
      (ag : AgentState σ κ),
      ¬(mctsAgentInitPy mctsModuleGlobals env noise s md cp g = PyOutcome.ok ag)) := by
  have hmem : "rotationally_randomize" ∉ mctsModuleGlobals := by decide
  have heq : ∀ (env : Env σ κ ι) (noise : List ℚ) (s : σ) (md : Nat) (cp g : ℚ),
      mctsAgentInitPy mctsModuleGlobals env noise s md cp g =
        PyOutcome.nameError "rotationally_randomize" := by
    intro env noise s md cp g
    unfold mctsAgentInitPy
    rw [if_neg hmem]
  refine ⟨hmem, heq, ?_⟩
  intro env noise s md cp g ag hok
  rw [heq] at hok
  exact PyOutcome.noConfusion hok

/-- Witness for C1 at the concrete toy instantiation. -/
theorem claim_C1_witness :
    mctsAgentInitPy mctsModuleGlobals toyEnv toyNoise 0 2 1 (1/2) =
      PyOutcome.nameError "rotationally_randomize" :=
  (@claim_C1_constructor_name_error Nat Nat Nat _ _).2.1 toyEnv toyNoise 0 2 1 (1/2)

end MctsNnCube
